import Mathlib

/-!
TabOut: time accounting and limit enforcement.

A shallow embedding of `src/background.js` (the service worker of the TabOut
extension): the domain resolver `extractDomain`, the time ledger
(`getTrackingData`, `saveTrackingData`, `updateTimeForSite`), the limit engine
(`checkLimits`, `handleCheckLimit`), the activity tracker (`updateCurrentSite`), the
alarm handler, the idle-state listener, the dispatcher `sendNudgeToActiveTab` and the
message listener; of
`addLimit` of `src/options.js`; and of the day-key functions of `background.js`,
`options.js`, `popup.js` and `stats.js`.

Modelling conventions.

* `chrome.storage.local` is an explicit `Storage` value threaded through every
  handler; each handler runs to completion (no interleaving at `await`).
* Plain JavaScript objects are association lists of own properties (`Obj`); a
  property read that finds nothing is `none` (`undefined`).  `Obj.get` and `Obj.set`
  are the JavaScript read and write only at keys that are not property names of
  `Object.prototype` (`plainKey`): at `constructor` or `__proto__` a read returns the
  inherited value and a write to `__proto__` stores nothing.  Every statement whose
  truth depends on a read or write under a domain key carries the hypothesis
  `plainKey`.
* Numbers are integers: `Date.now()` is an integer count of milliseconds and every
  stored duration is an integer count of seconds.  JavaScript adds them as doubles,
  which is exact on safe integers (`safeInt`); statements about a sum carry that
  hypothesis.
* What a handler does to the outside world is recorded as a list of `Event`s in
  program order.
* The clock (`Date.now()`, `getTodayKey()`), `chrome.idle.queryState`,
  `chrome.tabs.query`, the platform URL parser, `String.prototype.toLowerCase` and the
  result of `parseInt` are inputs of the handlers.
-/

namespace TabOut

/-! ## JavaScript objects and truthiness -/

/-- A plain JavaScript object with string keys: own properties in insertion order. -/
abbrev Obj (α : Type) := List (String × α)

/-- The property names of `Object.prototype`, which every ordinary object inherits. -/
def objectPrototypeKeys : List String :=
  ["constructor", "__proto__", "hasOwnProperty", "isPrototypeOf", "propertyIsEnumerable",
    "toLocaleString", "toString", "valueOf", "__defineGetter__", "__defineSetter__",
    "__lookupGetter__", "__lookupSetter__"]

/-- A key under which an ordinary object inherits nothing: reading it finds an own
property or `undefined`, and writing it creates or overwrites an own property. -/
def plainKey (k : String) : Bool := !objectPrototypeKeys.contains k

/-- `Number.isSafeInteger(n)`: sums of such integers that stay in the range are exact. -/
def safeInt (n : Int) : Bool :=
  decide (-9007199254740991 ≤ n ∧ n ≤ 9007199254740991)

namespace Obj

/-- Own-property read; `none` stands for `undefined`.  It is the JavaScript `o[k]` for
every key accepted by `plainKey`. -/
def get {α : Type} : Obj α → String → Option α
  | [], _ => none
  | (k', v) :: rest, k => if k' = k then some v else get rest k

/-- Own-property write: overwrite in place, or append a new property.  It is the
JavaScript `o[k] = v` for every key accepted by `plainKey`. -/
def set {α : Type} : Obj α → String → α → Obj α
  | [], k, v => [(k, v)]
  | (k', v') :: rest, k, v => if k' = k then (k', v) :: rest else (k', v') :: set rest k v

/-- The list `Object.values(o)`. -/
def values {α : Type} (o : Obj α) : List α := o.map Prod.snd

end Obj

/-- Truthiness of a numeric property: defined and not zero. -/
def truthyNum : Option Int → Bool
  | some n => n != 0
  | none => false

/-- Truthiness of a boolean property: defined and `true`. -/
def truthyFlag : Option Bool → Bool
  | some b => b
  | none => false

/-- Truthiness of a string or `null`: a non-empty string. -/
def truthyStr : Option String → Bool
  | some s => s != ""
  | none => false

/-- The value of `x || 0` for a numeric property `x`. -/
def orZero : Option Int → Int
  | some n => n
  | none => 0

/-! ## Data model -/

/-- The suppression record `settings.nudgedToday`.  The default record `{}` has no
`date` and no marks; every record whose `date` is a day key was written by
`checkLimits`, which always writes `sites` with it. -/
structure NudgedToday where
  date : Option String
  sites : Obj Bool
deriving DecidableEq, Repr

/-- The `settings` record of `chrome.storage.local`. -/
structure Settings where
  nudgeEnabled : Bool
  limits : Obj Int
  globalDailyLimit : Option Int
  nudgedToday : Option NudgedToday
deriving DecidableEq, Repr

/-- The persistent store: the `settings` key and the day buckets `tracking_YYYY-MM-DD`. -/
structure Storage where
  settings : Option Settings
  buckets : Obj (Obj Int)
deriving DecidableEq, Repr

/-- Payload of a `SHOW_NUDGE` message. -/
structure Nudge where
  domain : String
  timeSpent : Int
  limit : Int
deriving DecidableEq, Repr

/-- Observable actions of the service worker, in program order. -/
inductive Event where
  /-- The call `chrome.storage.local.set({ settings })`. -/
  | saveSettings (s : Settings)
  /-- The call `chrome.storage.local.set({ [key]: data })`. -/
  | saveTrackingData (key : String) (data : Obj Int)
  /-- The call `sendNudgeToActiveTab` of the site branch of `checkLimits` (line 108). -/
  | siteNudge (n : Nudge)
  /-- The call `sendNudgeToActiveTab` of the global branch of `checkLimits` (line 120). -/
  | globalNudge (n : Nudge)
  /-- The call `chrome.tabs.sendMessage(tabId, SHOW_NUDGE ...)` of `handleCheckLimit`. -/
  | sendMessage (tabId : Nat) (n : Nudge)
  /-- The call `chrome.tabs.remove(tabId)`. -/
  | removeTab (tabId : Nat)
deriving DecidableEq, Repr

/-! ## Domain resolver -/

/-- The fields of a parsed `URL` object that `extractDomain` reads. -/
structure URLObj where
  protocol : String
  hostname : String
deriving DecidableEq, Repr

/-- The JavaScript `s.replace(pat, rep)` with a string pattern, on character lists:
only the first occurrence of `pat` is replaced. -/
def replaceFirstChars (pat rep : List Char) : List Char → List Char
  | [] => if pat = [] then rep else []
  | c :: cs =>
    if pat.isPrefixOf (c :: cs) then rep ++ (c :: cs).drop pat.length
    else c :: replaceFirstChars pat rep cs

/-- The JavaScript `s.replace(pat, rep)` with a string pattern. -/
def replaceFirst (s pat rep : String) : String :=
  String.mk (replaceFirstChars pat.data rep.data s.data)

/-- `extractDomain(url)`.  `parseURL` is the platform constructor `new URL(url)`;
`none` is the `TypeError` it throws, which the `catch` turns into `null`. -/
def extractDomain (parseURL : String → Option URLObj) (url : String) : Option String :=
  match parseURL url with
  | none => none
  | some urlObj =>
    if urlObj.protocol = "chrome:" ∨ urlObj.protocol = "chrome-extension:" ∨
        urlObj.protocol = "brave:" ∨ urlObj.protocol = "about:" then none
    else some (replaceFirst urlObj.hostname "www." "")

/-! ## Storage functions -/

/-- `getTrackingData()`: the bucket stored under today's key, `{}` when absent. -/
def getTrackingData (todayKey : String) (st : Storage) : Obj Int :=
  match st.buckets.get todayKey with
  | some data => data
  | none => []

/-- `saveTrackingData(data)`. -/
def saveTrackingData (todayKey : String) (data : Obj Int) (st : Storage) : Storage :=
  { st with buckets := st.buckets.set todayKey data }

/-- The record `getSettings` returns when the store has no `settings` key. -/
def defaultSettings : Settings :=
  { nudgeEnabled := true, limits := [], globalDailyLimit := some 14400,
    nudgedToday := some { date := none, sites := [] } }

/-- `getSettings()`. -/
def getSettings (st : Storage) : Settings :=
  match st.settings with
  | some s => s
  | none => defaultSettings

/-- `saveSettings(settings)`. -/
def saveSettings (settings : Settings) (st : Storage) : Storage :=
  { st with settings := some settings }

/-! ## Limit engine -/

/-- The local variables of a `checkLimits` invocation: the `settings` object being
mutated, the store, and the actions performed so far. -/
structure Run where
  settings : Settings
  storage : Storage
  events : List Event
deriving DecidableEq, Repr

/-- The condition `!settings.nudgedToday || settings.nudgedToday.date !== todayKey`. -/
def staleNudgedToday (todayKey : String) (settings : Settings) : Bool :=
  match settings.nudgedToday with
  | none => true
  | some nt => nt.date != some todayKey

/-- The map `settings.nudgedToday.sites`, read after the initialisation block. -/
def Settings.sites (settings : Settings) : Obj Bool :=
  match settings.nudgedToday with
  | some nt => nt.sites
  | none => []

/-- The assignment `settings.nudgedToday.sites[key] = true`. -/
def Settings.mark (settings : Settings) (key : String) : Settings :=
  match settings.nudgedToday with
  | some nt => { settings with nudgedToday := some { nt with sites := nt.sites.set key true } }
  | none => settings

/-- Lines 82-88 of `checkLimits`: initialise `nudgedToday` for a new day. -/
def initNudgedToday (todayKey : String) (r : Run) : Run :=
  if staleNudgedToday todayKey r.settings then
    let settings := { r.settings with nudgedToday := some { date := some todayKey, sites := [] } }
    { settings := settings, storage := saveSettings settings r.storage,
      events := r.events ++ [Event.saveSettings settings] }
  else r

/-- Lines 90-109 of `checkLimits`: the site-specific limit, for a `domain` accepted by
`plainKey` (at an inherited key the reads `limits[domain]` and `sites[domain]` of lines
91 and 100 return the inherited value, and no site nudge is ever sent). -/
def siteCheck (domain : String) (timeSpent : Int) (r : Run) : Run :=
  let siteLimit := r.settings.limits.get domain
  match siteLimit with
  | some limit =>
    if limit != 0 && decide (timeSpent ≥ limit) && !truthyFlag (r.settings.sites.get domain) then
      let settings := r.settings.mark domain
      { settings := settings, storage := saveSettings settings r.storage,
        events := r.events ++
          [Event.saveSettings settings, Event.siteNudge ⟨domain, timeSpent, limit⟩] }
    else r
  | none => r

/-- The expression `Object.values(data).reduce((sum, t) => sum + t, 0)`. -/
def totalTime (data : Obj Int) : Int :=
  data.values.foldl (fun sum t => sum + t) 0

/-- Lines 111-121 of `checkLimits`: the global limit. -/
def globalCheck (todayKey : String) (r : Run) : Run :=
  let data := getTrackingData todayKey r.storage
  let total := totalTime data
  match r.settings.globalDailyLimit with
  | some limit =>
    if limit != 0 && decide (total ≥ limit) &&
        !truthyFlag (r.settings.sites.get "__global__") then
      let settings := r.settings.mark "__global__"
      { settings := settings, storage := saveSettings settings r.storage,
        events := r.events ++
          [Event.saveSettings settings, Event.globalNudge ⟨"all sites", total, limit⟩] }
    else r
  | none => r

/-- `checkLimits(domain, timeSpent)`, with `todayKey` the value of `getTodayKey()`. -/
def checkLimits (todayKey : String) (domain : String) (timeSpent : Int) (st : Storage) :
    Storage × List Event :=
  let settings := getSettings st
  if !settings.nudgeEnabled then (st, [])
  else
    let r := globalCheck todayKey (siteCheck domain timeSpent
      (initNudgedToday todayKey { settings := settings, storage := st, events := [] }))
    (r.storage, r.events)

/-- `updateTimeForSite(domain, seconds)`; `domain` may be `null`.  `todayKey` is the
value of `getTodayKey()` when the local date does not change during the call
(`updateTimeForSiteAt` below takes each read of the clock separately); line 65 is the
own-property update for a `domain` accepted by `plainKey`, and the sum is the
JavaScript sum on safe integers. -/
def updateTimeForSite (todayKey : String) (domain : Option String) (seconds : Int)
    (st : Storage) : Storage × List Event :=
  match domain with
  | none => (st, [])
  | some d =>
    if d = "" then (st, [])
    else
      let data := getTrackingData todayKey st
      let data := data.set d (orZero (data.get d) + seconds)
      let st1 := saveTrackingData todayKey data st
      let r := checkLimits todayKey d (orZero (data.get d)) st1
      (r.1, Event.saveTrackingData todayKey data :: r.2)

/-- `handleCheckLimit(domain, tabId)`; both arguments may be `undefined`.  The reads
`data[domain]` and `settings.limits[domain]` of lines 164-165 are own-property reads, as
they are for a `domain` accepted by `plainKey`. -/
def handleCheckLimit (todayKey : String) (domain : Option String) (tabId : Option Nat)
    (st : Storage) : List Event :=
  match domain, tabId with
  | some d, some tab =>
    if d = "" ∨ tab = 0 then []
    else
      let data := getTrackingData todayKey st
      let settings := getSettings st
      let timeSpent := orZero (data.get d)
      match settings.limits.get d with
      | some limit =>
        if limit != 0 && decide (timeSpent ≥ limit) && settings.nudgeEnabled then
          [Event.sendMessage tab ⟨d, timeSpent, limit⟩]
        else []
      | none => []
  | _, _ => []

/-! ## Activity tracker and alarm handler -/

/-- The module state of the service worker. -/
structure Activity where
  currentSite : Option String
  lastActiveTime : Int
deriving DecidableEq, Repr

/-- A tab as returned by `chrome.tabs.query`. -/
structure Tab where
  id : Option Nat
  url : Option String
deriving DecidableEq, Repr

/-- Outcome of `chrome.tabs.query`: a rejection or the list of matching tabs. -/
inductive TabQuery where
  | throws
  | tabs (found : List Tab)
deriving DecidableEq, Repr

/-- `updateCurrentSite()`; `now` is the value of `Date.now()` at line 191. -/
def updateCurrentSite (parseURL : String → Option URLObj) (q : TabQuery) (now : Int)
    (a : Activity) : Activity :=
  match q with
  | TabQuery.throws => { a with currentSite := none }
  | TabQuery.tabs found =>
    match found.head? with
    | some tab =>
      match tab.url with
      | some url =>
        if url = "" then { a with currentSite := none }
        else
          let domain := extractDomain parseURL url
          if domain ≠ a.currentSite then { currentSite := domain, lastActiveTime := now }
          else a
      | none => { a with currentSite := none }
    | none => { a with currentSite := none }

/-- The state reported by `chrome.idle`. -/
inductive IdleState where
  | active
  | idle
  | locked
deriving DecidableEq, Repr

/-- `Math.round(ms / 1000)` for an integer `ms`: halves round towards plus infinity. -/
def roundSeconds (ms : Int) : Int := (ms + 500) / 1000

/-- What one firing of the alarm reads from its environment. -/
structure TickEnv where
  /-- Result of `chrome.idle.queryState(60)`. -/
  state : IdleState
  /-- Value of `Date.now()` at line 208. -/
  now : Int
  /-- Value of `getTodayKey()` during the tick. -/
  todayKey : String
  /-- Result of `chrome.tabs.query` inside `updateCurrentSite`. -/
  query : TabQuery
  /-- Value of `Date.now()` at line 191. -/
  refreshNow : Int
deriving DecidableEq, Repr

/-- Module state together with the store. -/
structure World where
  activity : Activity
  storage : Storage
deriving DecidableEq, Repr

/-- The elapsed seconds a tick computes: `Math.round((now - lastActiveTime) / 1000)`. -/
def elapsed (env : TickEnv) (a : Activity) : Int :=
  roundSeconds (env.now - a.lastActiveTime)

/-- Lines 206-216 of the alarm listener: the accounting step. -/
def accountElapsed (env : TickEnv) (w : World) : World × List Event :=
  if env.state = IdleState.active ∧ truthyStr w.activity.currentSite = true then
    let e := elapsed env w.activity
    let r :=
      if 0 < e ∧ e < 120 then updateTimeForSite env.todayKey w.activity.currentSite e w.storage
      else (w.storage, [])
    ({ activity := { w.activity with lastActiveTime := env.now }, storage := r.1 }, r.2)
  else (w, [])

/-- The body of the alarm listener for the alarm `trackTime`. -/
def trackTime (parseURL : String → Option URLObj) (env : TickEnv) (w : World) :
    World × List Event :=
  let r := accountElapsed env w
  ({ r.1 with activity := updateCurrentSite parseURL env.query env.refreshNow r.1.activity },
    r.2)

/-- The listener `chrome.alarms.onAlarm`. -/
def onAlarm (parseURL : String → Option URLObj) (name : String) (env : TickEnv) (w : World) :
    World × List Event :=
  if name = "trackTime" then trackTime parseURL env w else (w, [])

/-- The listener `chrome.idle.onStateChanged`: `now` is the `Date.now()` of line 251,
taken before the pending `updateCurrentSite()` resumes with `q` and `refreshNow`. -/
def onIdleStateChanged (parseURL : String → Option URLObj) (state : IdleState) (now : Int)
    (q : TabQuery) (refreshNow : Int) (a : Activity) : Activity :=
  if state ≠ IdleState.active then { a with currentSite := none }
  else updateCurrentSite parseURL q refreshNow { a with lastActiveTime := now }

/-- One invocation of a listener of the service worker: a firing of the `trackTime`
alarm with what it reads, or an event of `chrome.idle.onStateChanged` with the new
state, the `Date.now()` of line 251 and what the pending `updateCurrentSite()` reads
when it resumes. -/
inductive Step where
  | tick (env : TickEnv)
  | idleChanged (state : IdleState) (now : Int) (query : TabQuery) (refreshNow : Int)
deriving DecidableEq, Repr

/-- One listener invocation, run to completion: no other listener runs while this one
is suspended at an `await`. -/
def runStep (parseURL : String → Option URLObj) (s : Step) (w : World) : World :=
  match s with
  | Step.tick env => (trackTime parseURL env w).1
  | Step.idleChanged state now q r =>
    { activity := onIdleStateChanged parseURL state now q r w.activity, storage := w.storage }

/-- A run of listener invocations, one after another. -/
def runSteps (parseURL : String → Option URLObj) : List Step → World → World
  | [], w => w
  | s :: rest, w => runSteps parseURL rest (runStep parseURL s w)

/-! ## Observations on traces -/

/-- Whether a trace contains a write of a day bucket, the first action of
`updateTimeForSite` on a trackable domain. -/
def writesBucket (evs : List Event) : Bool :=
  evs.any fun e =>
    match e with
    | Event.saveTrackingData _ _ => true
    | _ => false

/-- The site nudges for `domain` dispatched in a trace. -/
def siteNudgesFor (domain : String) (evs : List Event) : List Nudge :=
  evs.filterMap fun e =>
    match e with
    | Event.siteNudge n => if n.domain = domain then some n else none
    | _ => none

/-- The global nudges dispatched in a trace. -/
def globalNudges (evs : List Event) : List Nudge :=
  evs.filterMap fun e =>
    match e with
    | Event.globalNudge n => some n
    | _ => none

/-- The suppression key a dispatched nudge was marked under: the domain for a site
nudge, the sentinel for a global nudge. -/
def eventKey : Event → Option String
  | Event.siteNudge n => some n.domain
  | Event.globalNudge _ => some "__global__"
  | _ => none

/-- The suppression keys of the nudges dispatched in a trace. -/
def nudgeKeys (evs : List Event) : List String := evs.filterMap eventKey

/-- Whether `settings.nudgedToday` belongs to `todayKey` and carries a mark for `k`. -/
def markedToday (todayKey : String) (settings : Settings) (k : String) : Bool :=
  !staleNudgedToday todayKey settings && truthyFlag (settings.sites.get k)

/-- One if the key `k` may still be nudged today, zero once it is marked. -/
def unmarked (todayKey : String) (settings : Settings) (k : String) : Nat :=
  if markedToday todayKey settings k then 0 else 1

/-- An invocation of the limit engine by the tracker. -/
inductive Op where
  /-- The call `updateTimeForSite(domain, seconds)`. -/
  | update (domain : String) (seconds : Int)
  /-- The call `checkLimits(domain, timeSpent)`. -/
  | check (domain : String) (timeSpent : Int)
deriving DecidableEq, Repr

/-- One invocation, run to completion. -/
def runOp (todayKey : String) (op : Op) (st : Storage) : Storage × List Event :=
  match op with
  | Op.update domain seconds => updateTimeForSite todayKey (some domain) seconds st
  | Op.check domain timeSpent => checkLimits todayKey domain timeSpent st

/-- A sequence of invocations under one day key, each run to completion before the
next starts; the traces are concatenated. -/
def runOps (todayKey : String) : List Op → Storage → Storage × List Event
  | [], st => (st, [])
  | op :: rest, st =>
    ((runOps todayKey rest (runOp todayKey op st).1).1,
      (runOp todayKey op st).2 ++ (runOps todayKey rest (runOp todayKey op st).1).2)

/-- The condition of line 100:
`siteLimit && timeSpent >= siteLimit && !settings.nudgedToday.sites[domain]`. -/
def siteDue (settings : Settings) (domain : String) (timeSpent : Int) : Bool :=
  truthyNum (settings.limits.get domain) &&
    decide (timeSpent ≥ orZero (settings.limits.get domain)) &&
    !truthyFlag (settings.sites.get domain)

/-- The condition of line 115, for the bucket total `total`. -/
def globalDue (settings : Settings) (total : Int) : Bool :=
  truthyNum settings.globalDailyLimit &&
    decide (total ≥ orZero settings.globalDailyLimit) &&
    !truthyFlag (settings.sites.get "__global__")

/-- The three blocks of `checkLimits` after the `nudgeEnabled` guard, run in order. -/
def checkRun (todayKey : String) (domain : String) (timeSpent : Int) (st : Storage) : Run :=
  globalCheck todayKey (siteCheck domain timeSpent
    (initNudgedToday todayKey { settings := getSettings st, storage := st, events := [] }))

/-- The settings after the assignment of line 86:
`settings.nudgedToday = { date: todayKey, sites: {} }`. -/
def resetNudgedToday (todayKey : String) (settings : Settings) : Settings :=
  { settings with nudgedToday := some { date := some todayKey, sites := [] } }

/-- Whether a tab query finds an active tab showing a page of domain `d`. -/
def queryShows (parseURL : String → Option URLObj) (d : String) (q : TabQuery) : Bool :=
  match q with
  | TabQuery.tabs (tab :: _) =>
    match tab.url with
    | some url => url != "" && extractDomain parseURL url == some d
    | none => false
  | _ => false

/-- The seconds an active tick commits when the previous timestamp is `last`. -/
def acceptedWindow (last now : Int) : Int :=
  if 0 < roundSeconds (now - last) ∧ roundSeconds (now - last) < 120 then
    roundSeconds (now - last)
  else 0

/-- The time at which a listener invocation starts: the `Date.now()` of the tick or of
the event. -/
def Step.time : Step → Int
  | Step.tick env => env.now
  | Step.idleChanged _ now _ _ => now

/-- The time at which a listener invocation ends: the `Date.now()` of its refresh. -/
def Step.endTime : Step → Int
  | Step.tick env => env.refreshNow
  | Step.idleChanged _ _ _ refreshNow => refreshNow

/-- Whether a listener invocation happens with a page of domain `d` in the active tab
and, for a tick, under the day key `key`. -/
def focusedStep (parseURL : String → Option URLObj) (d key : String) : Step → Bool
  | Step.tick env => queryShows parseURL d env.query && env.todayKey == key
  | Step.idleChanged _ _ q _ => queryShows parseURL d q

/-- The idle state of the platform after a listener invocation, `state` being the one
before it: an idle-state event announces the new state, a tick changes nothing. -/
def Step.stateAfter (state : IdleState) : Step → IdleState
  | Step.tick _ => state
  | Step.idleChanged newState _ _ _ => newState

/-- Whether a listener invocation agrees with the idle state of the platform: a tick
reads that state from `chrome.idle.queryState`. -/
def Step.agrees (state : IdleState) : Step → Bool
  | Step.tick env => env.state == state
  | Step.idleChanged _ _ _ _ => true

/-- Whether the idle signals of a run agree with its idle-state events: every tick
reports the state of the most recent event, `state` being the state before the run. -/
def signalsAgree : IdleState → List Step → Bool
  | _, [] => true
  | state, s :: rest => s.agrees state && signalsAgree (s.stateAfter state) rest

/-- Whether the clock never runs backwards in a run that starts at `clock`: every
invocation starts no earlier than the previous one ended, and ends no earlier than it
starts. -/
def wellTimed : Int → List Step → Bool
  | _, [] => true
  | clock, s :: rest =>
    decide (clock ≤ s.time) && decide (s.time ≤ s.endTime) && wellTimed s.endTime rest

/-- The start of the window that the next active tick measures: `lastActiveTime` while
a site is current, nothing while `currentSite` is `null` or empty. -/
def windowStart (a : Activity) : Option Int :=
  if truthyStr a.currentSite = true then some a.lastActiveTime else none

/-- Specification side, for a site focused throughout: the seconds one listener
invocation commits when the current window starts at `start`.  Only a tick reported
`active` commits, and it commits its elapsed window when that passes the sanity
window. -/
def stepSeconds (start : Option Int) : Step → Int
  | Step.tick env =>
    match start with
    | some last => if env.state = IdleState.active then acceptedWindow last env.now else 0
    | none => 0
  | Step.idleChanged _ _ _ _ => 0

/-- Specification side, for a site focused throughout: the start of the window after
one listener invocation.  An active tick moves it to its own time, a tick reported idle
leaves it, an idle-state event other than `active` closes it, the return to `active`
moves it to the time of the return, and a refresh that finds the site again while no
window is open opens one at the time of the refresh. -/
def nextStart (start : Option Int) : Step → Option Int
  | Step.tick env =>
    match start with
    | some last => some (if env.state = IdleState.active then env.now else last)
    | none => some env.refreshNow
  | Step.idleChanged state now _ refreshNow =>
    if state = IdleState.active then
      match start with
      | some _ => some now
      | none => some refreshNow
    else none

/-- Specification side: the sum of the elapsed windows that ended in an `active` tick
and passed the sanity window, over a run of listener invocations. -/
def committedSeconds : Option Int → List Step → Int
  | _, [] => 0
  | start, s :: rest => stepSeconds start s + committedSeconds (nextStart start s) rest

/-- A platform URL parser restricted to the one address used in the scenarios below. -/
def scenarioParse (url : String) : Option URLObj :=
  if url = "https://a.com/page" then some { protocol := "https:", hostname := "a.com" }
  else none

/-- A tick of the scenarios below: idle signal `state` at `now` milliseconds, with the
active tab showing `url`. -/
def scenarioTick (state : IdleState) (now : Int) (url : String) : Step :=
  Step.tick
    { state := state, now := now, todayKey := "tracking_2024-01-01",
      query := TabQuery.tabs [{ id := some 1, url := some url }],
      refreshNow := now + 1 }

/-- An idle-state event of the scenarios below: the new `state` at `now` milliseconds,
with the active tab showing `url`. -/
def scenarioEvent (state : IdleState) (now : Int) (url : String) : Step :=
  Step.idleChanged state now (TabQuery.tabs [{ id := some 1, url := some url }]) (now + 1)

/-- The run of the scenarios below: ticks at 10, 20 and 30 seconds reported active, idle
and active, with the idle-state events between them: `idle` half a second before the
second tick and `active` at `back` milliseconds. -/
def scenarioRun (url : String) (back : Int) : List Step :=
  [scenarioTick IdleState.active 10000 url, scenarioEvent IdleState.idle 19500 url,
    scenarioTick IdleState.idle 20000 url, scenarioEvent IdleState.active back url,
    scenarioTick IdleState.active 30000 url]

/-- The start of the scenarios below: the site `site` current since time 0, nothing
stored. -/
def scenarioStart (site : String) : World :=
  { activity := { currentSite := some site, lastActiveTime := 0 },
    storage := { settings := none, buckets := [] } }

/-- A platform URL parser for a page without host, such as a `file:` address. -/
def scenarioFileParse (_ : String) : Option URLObj :=
  some { protocol := "file:", hostname := "" }

/-! ## Notification dispatcher and inbound messages -/

/-- `sendNudgeToActiveTab(domain, timeSpent, limit)` when `chrome.tabs.query` answers `q`:
the `SHOW_NUDGE` message handed to `chrome.tabs.sendMessage`, if any.  A rejected query,
an empty result and a tab without id send nothing; every failure is caught and logged,
and nothing is returned to the caller. -/
def sendNudgeToActiveTab (q : TabQuery) (n : Nudge) : List Event :=
  match q with
  | TabQuery.throws => []
  | TabQuery.tabs found =>
    match found.head? with
    | some tab =>
      match tab.id with
      | some id => if id = 0 then [] else [Event.sendMessage id n]
      | none => []
    | none => []

/-- The messages sent for the nudges dispatched in a trace, when the tab query of each
dispatch answers `q`. -/
def deliveries (q : TabQuery) : List Event → List Event
  | [] => []
  | Event.siteNudge n :: rest => sendNudgeToActiveTab q n ++ deliveries q rest
  | Event.globalNudge n :: rest => sendNudgeToActiveTab q n ++ deliveries q rest
  | _ :: rest => deliveries q rest

/-- A message received by `chrome.runtime.onMessage`, by its `type`. -/
inductive Message where
  /-- The message `CHECK_LIMIT` with its `domain` field. -/
  | checkLimit (domain : Option String)
  /-- The message `USER_CONTINUED` with its `domain` field. -/
  | userContinued (domain : Option String)
  /-- The message `CLOSE_TAB`. -/
  | closeTab
  /-- A message of any other type. -/
  | other
deriving DecidableEq, Repr

/-- The listener `chrome.runtime.onMessage`; `senderTab` is `sender.tab?.id`.  The
listener is handed the store and returns it together with its actions. -/
def onMessage (todayKey : String) (message : Message) (senderTab : Option Nat)
    (st : Storage) : Storage × List Event :=
  match message with
  | Message.checkLimit domain => (st, handleCheckLimit todayKey domain senderTab st)
  | Message.userContinued _ => (st, [])
  | Message.closeTab =>
    match senderTab with
    | some id => if id = 0 then (st, []) else (st, [Event.removeTab id])
    | none => (st, [])
  | Message.other => (st, [])

/-- Whether an action writes to `chrome.storage.local`. -/
def Event.isWrite : Event → Bool
  | Event.saveSettings _ => true
  | Event.saveTrackingData _ _ => true
  | _ => false

/-! ## Options page: adding a limit -/

/-- The white space that `String.prototype.trim` removes. -/
def jsWhitespace (c : Char) : Bool :=
  c.toNat = 9 || c.toNat = 10 || c.toNat = 11 || c.toNat = 12 || c.toNat = 13 ||
    c.toNat = 32 || c.toNat = 160 || c.toNat = 5760 ||
    (8192 ≤ c.toNat && c.toNat ≤ 8202) || c.toNat = 8232 || c.toNat = 8233 ||
    c.toNat = 8239 || c.toNat = 8287 || c.toNat = 12288 || c.toNat = 65279

/-- `s.trim()` on character lists. -/
def trimChars (s : List Char) : List Char :=
  ((s.dropWhile jsWhitespace).reverse.dropWhile jsWhitespace).reverse

/-- `s.toLowerCase()` on a text whose letters are all ASCII letters (on other letters
the platform function and this one differ); it stands for the platform function in the
scenarios below, whose texts are ASCII. -/
def lowerChars (s : List Char) : List Char := s.map Char.toLower

/-- `s.replace(/^(https?:\/\/)?(www\.)?/, '')` on character lists: an optional scheme
`http://` or `https://` at the start, then an optional `www.`, are removed once. -/
def stripSchemeWww (s : List Char) : List Char :=
  let s1 :=
    if "https://".data.isPrefixOf s then s.drop 8
    else if "http://".data.isPrefixOf s then s.drop 7
    else s
  if "www.".data.isPrefixOf s1 then s1.drop 4 else s1

/-- The key under which `addLimit` stores the limit for the text `value` of the domain
field: `value.trim().toLowerCase()`, with scheme and `www.` stripped, up to the first
`/`.  `toLowerCase` is the platform function `String.prototype.toLowerCase`. -/
def limitKey (toLowerCase : List Char → List Char) (value : String) : String :=
  String.mk ((stripSchemeWww (toLowerCase (trimChars value.data))).takeWhile
    (fun c => c != '/'))

/-- The JavaScript assignment `o[k] = v` of a number `v` on an ordinary object: the key
`__proto__`, unless it is an own property, goes to the setter inherited from
`Object.prototype`, which ignores a number; every other key is created or overwritten
as an own property. -/
def assignProperty {α : Type} (o : Obj α) (k : String) (v : α) : Obj α :=
  if k = "__proto__" && (o.get k).isNone then o else o.set k v

/-- The settings after the assignment `settings.limits[domain] = seconds`. -/
def withLimit (settings : Settings) (domain : String) (seconds : Int) : Settings :=
  { settings with limits := assignProperty settings.limits domain seconds }

/-- `addLimit()` of `options.js`, for the text `value` of the domain field and the
result `parsed` of `parseInt` on the minutes field (`none` for `NaN`); `toLowerCase` is
the platform function.  The updates of the page itself are not part of the model. -/
def addLimit (toLowerCase : List Char → List Char) (value : String) (parsed : Option Int)
    (st : Storage) : Storage × List Event :=
  let minutes : Int :=
    match parsed with
    | some n => if n = 0 then 30 else n
    | none => 30
  if toLowerCase (trimChars value.data) = [] then (st, [])
  else
    let settings := withLimit (getSettings st) (limitKey toLowerCase value) (minutes * 60)
    (saveSettings settings st, [Event.saveSettings settings])

/-! ## Day keys -/

/-- The fields of a `Date` object that the key functions read, in local time. -/
structure JsDate where
  /-- Result of `getFullYear()`. -/
  fullYear : Int
  /-- Result of `getMonth()`: 0 is January. -/
  month : Nat
  /-- Result of `getDate()`: the day of the month. -/
  date : Nat
deriving DecidableEq, Repr

/-- The character of a decimal digit. -/
def digitChar : Nat → Char
  | 0 => '0'
  | 1 => '1'
  | 2 => '2'
  | 3 => '3'
  | 4 => '4'
  | 5 => '5'
  | 6 => '6'
  | 7 => '7'
  | 8 => '8'
  | _ => '9'

/-- `String(n)` for a natural number: its decimal digits, most significant first. -/
def natChars (n : Nat) : List Char :=
  if n = 0 then ['0'] else (Nat.digits 10 n).reverse.map digitChar

/-- `String(z)` for an integer: a minus sign before the digits of a negative number. -/
def intChars : Int → List Char
  | Int.ofNat n => natChars n
  | Int.negSucc n => '-' :: natChars (n + 1)

/-- `s.padStart(2, '0')` on character lists. -/
def padStart2 (s : List Char) : List Char :=
  List.replicate (2 - s.length) '0' ++ s

/-- `getTodayKey()` of `background.js`, for the value `today` of `new Date()`. -/
def getTodayKey (today : JsDate) : String :=
  String.mk ("tracking_".data ++ intChars today.fullYear ++ ['-'] ++
    padStart2 (natChars (today.month + 1)) ++ ['-'] ++ padStart2 (natChars today.date))

/-- `getTodayKey()` of `options.js`. -/
def Options.getTodayKey (today : JsDate) : String :=
  String.mk ("tracking_".data ++ intChars today.fullYear ++ ['-'] ++
    padStart2 (natChars (today.month + 1)) ++ ['-'] ++ padStart2 (natChars today.date))

/-- `getTodayKey()` of `popup.js`. -/
def Popup.getTodayKey (today : JsDate) : String :=
  String.mk ("tracking_".data ++ intChars today.fullYear ++ ['-'] ++
    padStart2 (natChars (today.month + 1)) ++ ['-'] ++ padStart2 (natChars today.date))

/-- `getDateKey(date)` of `stats.js`. -/
def Stats.getDateKey (date : JsDate) : String :=
  String.mk ("tracking_".data ++ intChars date.fullYear ++ ['-'] ++
    padStart2 (natChars (date.month + 1)) ++ ['-'] ++ padStart2 (natChars date.date))

/-- The two decimal digits of a number below 100. -/
def twoDigits (n : Nat) : List Char := [digitChar (n / 10), digitChar (n % 10)]

/-- The key scheme in the words of the specification, for year `y`, month `m` counted
from 1 and day `d`: `tracking_`, the year, `-`, the month on two digits, `-`, the day
on two digits. -/
def specDayKey (y : Int) (m d : Nat) : String :=
  String.mk ("tracking_".data ++ intChars y ++ ['-'] ++ twoDigits m ++ ['-'] ++ twoDigits d)

/-- The settings with the field `nudgedToday` replaced by `nt`. -/
def withNudgedToday (settings : Settings) (nt : Option NudgedToday) : Settings :=
  { settings with nudgedToday := nt }

/-! ## The ledger update with the clock read at each use -/

/-- `checkLimits(domain, timeSpent)` when `getTodayKey()` returns `dateKey` at line 83
and `dataKey` inside the `getTrackingData()` of line 112. -/
def checkLimitsAt (dateKey dataKey : String) (domain : String) (timeSpent : Int)
    (st : Storage) : Storage × List Event :=
  let settings := getSettings st
  if !settings.nudgeEnabled then (st, [])
  else
    let r := globalCheck dataKey (siteCheck domain timeSpent
      (initNudgedToday dateKey { settings := settings, storage := st, events := [] }))
    (r.storage, r.events)

/-- `updateTimeForSite(domain, seconds)` when `getTodayKey()` returns `readKey` inside
`getTrackingData()` (line 64), `writeKey` inside `saveTrackingData()` (line 66), and
`dateKey` and `dataKey` inside `checkLimits`: the clock is read anew after each
`await`, so the four keys differ when the local date changes during the call. -/
def updateTimeForSiteAt (readKey writeKey dateKey dataKey : String) (domain : Option String)
    (seconds : Int) (st : Storage) : Storage × List Event :=
  match domain with
  | none => (st, [])
  | some d =>
    if d = "" then (st, [])
    else
      let data := getTrackingData readKey st
      let data := data.set d (orZero (data.get d) + seconds)
      let st1 := saveTrackingData writeKey data st
      let r := checkLimitsAt dateKey dataKey d (orZero (data.get d)) st1
      (r.1, Event.saveTrackingData writeKey data :: r.2)

/-- A bucket of non-negative seconds whose total is a safe integer: every partial sum
of its values, in whatever order, is then a safe integer. -/
def safeBucket (data : Obj Int) : Bool :=
  data.all (fun p => decide (0 ≤ p.2)) && safeInt (totalTime data)

/-! ## Basic facts about objects and the store -/

theorem Obj.get_set_same {α : Type} (o : Obj α) (k : String) (v : α) :
    (o.set k v).get k = some v := by
  induction o with
  | nil => simp [Obj.set, Obj.get]
  | cons p rest ih =>
    obtain ⟨k', v'⟩ := p
    by_cases h : k' = k
    · simp [Obj.set, Obj.get, h]
    · simp [Obj.set, Obj.get, h, ih]

theorem Obj.get_set_ne {α : Type} (o : Obj α) (k k2 : String) (v : α) (hne : k2 ≠ k) :
    (o.set k v).get k2 = o.get k2 := by
  induction o with
  | nil => simp [Obj.set, Obj.get, Ne.symm hne]
  | cons p rest ih =>
    obtain ⟨k', v'⟩ := p
    by_cases h : k' = k
    · subst h
      simp [Obj.set, Obj.get, Ne.symm hne]
    · by_cases h2 : k' = k2
      · subst h2
        simp [Obj.set, Obj.get, h]
      · simp [Obj.set, Obj.get, h, h2, ih]

theorem initNudgedToday_buckets (k : String) (r : Run) :
    (initNudgedToday k r).storage.buckets = r.storage.buckets := by
  unfold initNudgedToday
  split <;> simp [saveSettings]

theorem siteCheck_buckets (d : String) (t : Int) (r : Run) :
    (siteCheck d t r).storage.buckets = r.storage.buckets := by
  unfold siteCheck
  dsimp only
  split
  · split <;> simp [saveSettings]
  · rfl

theorem globalCheck_buckets (k : String) (r : Run) :
    (globalCheck k r).storage.buckets = r.storage.buckets := by
  unfold globalCheck
  dsimp only
  split
  · split <;> simp [saveSettings]
  · rfl

theorem checkLimits_buckets (k d : String) (t : Int) (st : Storage) :
    (checkLimits k d t st).1.buckets = st.buckets := by
  unfold checkLimits
  dsimp only
  split
  · rfl
  · simp [globalCheck_buckets, siteCheck_buckets, initNudgedToday_buckets]

/-! ## The sanity window of the tick handler -/

theorem updateTimeForSite_trackable (k d : String) (s : Int) (st : Storage) (hd : d ≠ "") :
    updateTimeForSite k (some d) s st =
      ((checkLimits k d (orZero ((getTrackingData k st).get d) + s)
          (saveTrackingData k ((getTrackingData k st).set d
            (orZero ((getTrackingData k st).get d) + s)) st)).1,
        Event.saveTrackingData k ((getTrackingData k st).set d
            (orZero ((getTrackingData k st).get d) + s)) ::
          (checkLimits k d (orZero ((getTrackingData k st).get d) + s)
            (saveTrackingData k ((getTrackingData k st).set d
              (orZero ((getTrackingData k st).get d) + s)) st)).2) := by
  simp [updateTimeForSite, hd, Obj.get_set_same, orZero]

theorem updateTimeForSite_ledger (k d : String) (s : Int) (st : Storage) (hd : d ≠ "") :
    getTrackingData k (updateTimeForSite k (some d) s st).1 =
      (getTrackingData k st).set d (orZero ((getTrackingData k st).get d) + s) := by
  rw [updateTimeForSite_trackable k d s st hd]
  simp [getTrackingData, checkLimits_buckets, saveTrackingData, Obj.get_set_same]

/-- C1 (as amended). On a tick whose idle signal is active and whose `currentSite` is a
non-empty string that is not a property name of `Object.prototype`, with `e` the
rounded elapsed seconds, the tick performs exactly the effects of
`updateTimeForSite(currentSite, e)` when `0 < e < 120` and no effect on the store
otherwise; a bucket write occurs iff `0 < e < 120`; `e = 0` and `e = 120` leave the
store unchanged, and an accepted `e` (such as 1 or 119) adds exactly `e` seconds to the
bucket entry of the current domain, the old and the new entry being safe integers and
the day key being the same throughout the tick. -/
theorem tick_sanity_window (parseURL : String → Option URLObj) (env : TickEnv) (w : World)
    (d : String) (hstate : env.state = IdleState.active)
    (hsite : w.activity.currentSite = some d) (hd : d ≠ "") (hplain : plainKey d = true)
    (hold : safeInt (orZero ((getTrackingData env.todayKey w.storage).get d)) = true)
    (hnew : safeInt (orZero ((getTrackingData env.todayKey w.storage).get d) +
      elapsed env w.activity) = true) :
    ((0 < elapsed env w.activity ∧ elapsed env w.activity < 120) →
      (onAlarm parseURL "trackTime" env w).1.storage =
          (updateTimeForSite env.todayKey (some d) (elapsed env w.activity) w.storage).1 ∧
        (onAlarm parseURL "trackTime" env w).2 =
          (updateTimeForSite env.todayKey (some d) (elapsed env w.activity) w.storage).2 ∧
        (getTrackingData env.todayKey (onAlarm parseURL "trackTime" env w).1.storage).get d =
          some (orZero ((getTrackingData env.todayKey w.storage).get d) +
            elapsed env w.activity)) ∧
    (¬ (0 < elapsed env w.activity ∧ elapsed env w.activity < 120) →
      (onAlarm parseURL "trackTime" env w).1.storage = w.storage ∧
        (onAlarm parseURL "trackTime" env w).2 = []) ∧
    (writesBucket (onAlarm parseURL "trackTime" env w).2 = true ↔
      (0 < elapsed env w.activity ∧ elapsed env w.activity < 120)) ∧
    ((elapsed env w.activity = 0 ∨ elapsed env w.activity = 120) →
      (onAlarm parseURL "trackTime" env w).1.storage = w.storage) ∧
    ((elapsed env w.activity = 1 ∨ elapsed env w.activity = 119) →
      (getTrackingData env.todayKey (onAlarm parseURL "trackTime" env w).1.storage).get d =
        some (orZero ((getTrackingData env.todayKey w.storage).get d) +
          elapsed env w.activity)) := by
  have htr2 : truthyStr (some d) = true := by simp [truthyStr, hd]
  have htr : truthyStr w.activity.currentSite = true := by rw [hsite]; exact htr2
  have hin : (0 < elapsed env w.activity ∧ elapsed env w.activity < 120) →
      (onAlarm parseURL "trackTime" env w).1.storage =
          (updateTimeForSite env.todayKey (some d) (elapsed env w.activity) w.storage).1 ∧
        (onAlarm parseURL "trackTime" env w).2 =
          (updateTimeForSite env.todayKey (some d) (elapsed env w.activity) w.storage).2 ∧
        (getTrackingData env.todayKey (onAlarm parseURL "trackTime" env w).1.storage).get d =
          some (orZero ((getTrackingData env.todayKey w.storage).get d) +
            elapsed env w.activity) := by
    intro he
    have h1 : (onAlarm parseURL "trackTime" env w).1.storage =
        (updateTimeForSite env.todayKey (some d) (elapsed env w.activity) w.storage).1 := by
      simp [onAlarm, trackTime, accountElapsed, hstate, htr2, he, hsite]
    have h2 : (onAlarm parseURL "trackTime" env w).2 =
        (updateTimeForSite env.todayKey (some d) (elapsed env w.activity) w.storage).2 := by
      simp [onAlarm, trackTime, accountElapsed, hstate, htr2, he, hsite]
    refine ⟨h1, h2, ?_⟩
    rw [h1, updateTimeForSite_ledger _ _ _ _ hd, Obj.get_set_same]
  have hout : ¬ (0 < elapsed env w.activity ∧ elapsed env w.activity < 120) →
      (onAlarm parseURL "trackTime" env w).1.storage = w.storage ∧
        (onAlarm parseURL "trackTime" env w).2 = [] := by
    intro he
    constructor <;> simp [onAlarm, trackTime, accountElapsed, hstate, htr, he]
  refine ⟨hin, hout, ?_, ?_, ?_⟩
  · constructor
    · intro hw
      by_contra he
      rw [(hout he).2] at hw
      simp [writesBucket] at hw
    · intro he
      rw [(hin he).2.1, updateTimeForSite_trackable _ _ _ _ hd]
      simp [writesBucket]
  · intro he
    apply (hout _).1
    omega
  · intro he
    apply (hin _).2.2
    omega

/-- The sanity window at a concrete tick: 119 seconds are accepted. -/
theorem tick_sanity_window_witness :
    (getTrackingData "tracking_2024-01-01"
        (onAlarm (fun _ => none) "trackTime"
          { state := IdleState.active, now := 119000, todayKey := "tracking_2024-01-01",
            query := TabQuery.throws, refreshNow := 119001 }
          { activity := { currentSite := some "a.com", lastActiveTime := 0 },
            storage := { settings := none, buckets := [] } }).1.storage).get "a.com" =
      some (orZero ((getTrackingData "tracking_2024-01-01"
        { settings := none, buckets := [] }).get "a.com") + 119) :=
  (tick_sanity_window (fun _ => none)
    { state := IdleState.active, now := 119000, todayKey := "tracking_2024-01-01",
      query := TabQuery.throws, refreshNow := 119001 }
    { activity := { currentSite := some "a.com", lastActiveTime := 0 },
      storage := { settings := none, buckets := [] } }
    "a.com" rfl rfl (by decide) (by decide) (by decide) (by decide)).2.2.2.2
    (Or.inr (by decide))

/-- C1 (as stated) fails when `currentSite` is the empty string, which is not `null`:
with an active idle signal and one elapsed second the tick writes nothing, so the
single second is not added to the bucket of the current domain. -/
theorem tick_sanity_window_empty_site :
    ({ currentSite := some "", lastActiveTime := 0 } : Activity).currentSite ≠ none ∧
    elapsed { state := IdleState.active, now := 1000, todayKey := "tracking_2024-01-01",
              query := TabQuery.throws, refreshNow := 1001 }
        { currentSite := some "", lastActiveTime := 0 } = 1 ∧
    (onAlarm (fun _ => none) "trackTime"
        { state := IdleState.active, now := 1000, todayKey := "tracking_2024-01-01",
          query := TabQuery.throws, refreshNow := 1001 }
        { activity := { currentSite := some "", lastActiveTime := 0 },
          storage := { settings := none, buckets := [] } }).2 = [] ∧
    (onAlarm (fun _ => none) "trackTime"
        { state := IdleState.active, now := 1000, todayKey := "tracking_2024-01-01",
          query := TabQuery.throws, refreshNow := 1001 }
        { activity := { currentSite := some "", lastActiveTime := 0 },
          storage := { settings := none, buckets := [] } }).1.storage =
      { settings := none, buckets := [] } := by
  decide

/-! ## At most one nudge per key and day -/

theorem initNudgedToday_fresh (key : String) (r : Run) :
    staleNudgedToday key (initNudgedToday key r).settings = false := by
  unfold initNudgedToday
  split
  · simp [staleNudgedToday]
  · simpa using ‹¬ staleNudgedToday key r.settings = true›

theorem initNudgedToday_of_fresh (key : String) (r : Run)
    (h : staleNudgedToday key r.settings = false) : initNudgedToday key r = r := by
  simp [initNudgedToday, h]

theorem initNudgedToday_sync (key : String) (r : Run)
    (h : getSettings r.storage = r.settings) :
    getSettings (initNudgedToday key r).storage = (initNudgedToday key r).settings := by
  unfold initNudgedToday
  split
  · simp [saveSettings, getSettings]
  · exact h

theorem initNudgedToday_keys (key : String) (r : Run) :
    nudgeKeys (initNudgedToday key r).events = nudgeKeys r.events := by
  unfold initNudgedToday
  split
  · simp [nudgeKeys, eventKey]
  · rfl

theorem initNudgedToday_unmarked (key k : String) (r : Run) :
    unmarked key (initNudgedToday key r).settings k = unmarked key r.settings k := by
  unfold initNudgedToday
  split
  · rename_i h
    have h1 : unmarked key r.settings k = 1 := by simp [unmarked, markedToday, h]
    rw [h1]
    simp [unmarked, markedToday, staleNudgedToday, Settings.sites, Obj.get, truthyFlag]
  · rfl

theorem mark_fresh (key k : String) (s : Settings) (h : staleNudgedToday key s = false) :
    staleNudgedToday key (s.mark k) = false := by
  unfold staleNudgedToday at h ⊢
  unfold Settings.mark
  cases hn : s.nudgedToday with
  | none => simp [hn] at h
  | some nt => simpa [hn] using h

theorem mark_sites (key k : String) (s : Settings) (h : staleNudgedToday key s = false) :
    (s.mark k).sites = s.sites.set k true := by
  unfold staleNudgedToday at h
  unfold Settings.mark Settings.sites
  cases hn : s.nudgedToday with
  | none => simp [hn] at h
  | some nt => simp

theorem unmarked_mark_self (key k : String) (s : Settings)
    (h : staleNudgedToday key s = false) : unmarked key (s.mark k) k = 0 := by
  simp [unmarked, markedToday, mark_fresh key k s h, mark_sites key k s h, Obj.get_set_same,
    truthyFlag]

theorem unmarked_mark_other (key k d : String) (s : Settings)
    (h : staleNudgedToday key s = false) (hne : k ≠ d) :
    unmarked key (s.mark d) k = unmarked key s k := by
  simp [unmarked, markedToday, mark_fresh key d s h, mark_sites key d s h,
    Obj.get_set_ne _ _ _ _ hne, h]

theorem siteCheck_eq (d : String) (t : Int) (r : Run) :
    siteCheck d t r =
      if siteDue r.settings d t then
        { settings := r.settings.mark d, storage := saveSettings (r.settings.mark d) r.storage,
          events := r.events ++ [Event.saveSettings (r.settings.mark d),
            Event.siteNudge ⟨d, t, orZero (r.settings.limits.get d)⟩] }
      else r := by
  unfold siteCheck siteDue
  dsimp only
  cases hl : r.settings.limits.get d with
  | none => simp [truthyNum]
  | some l => simp [truthyNum, orZero]

theorem globalCheck_eq (key : String) (r : Run) :
    globalCheck key r =
      if globalDue r.settings (totalTime (getTrackingData key r.storage)) then
        { settings := r.settings.mark "__global__",
          storage := saveSettings (r.settings.mark "__global__") r.storage,
          events := r.events ++ [Event.saveSettings (r.settings.mark "__global__"),
            Event.globalNudge ⟨"all sites", totalTime (getTrackingData key r.storage),
              orZero r.settings.globalDailyLimit⟩] }
      else r := by
  unfold globalCheck globalDue
  dsimp only
  cases hl : r.settings.globalDailyLimit with
  | none => simp [truthyNum]
  | some l => simp [truthyNum, orZero]

theorem siteCheck_fresh (key d : String) (t : Int) (r : Run)
    (h : staleNudgedToday key r.settings = false) :
    staleNudgedToday key (siteCheck d t r).settings = false := by
  rw [siteCheck_eq]
  split
  · exact mark_fresh key d _ h
  · exact h

theorem globalCheck_fresh (key key2 : String) (r : Run)
    (h : staleNudgedToday key r.settings = false) :
    staleNudgedToday key (globalCheck key2 r).settings = false := by
  rw [globalCheck_eq]
  split
  · exact mark_fresh key _ _ h
  · exact h

theorem siteCheck_sync (d : String) (t : Int) (r : Run)
    (h : getSettings r.storage = r.settings) :
    getSettings (siteCheck d t r).storage = (siteCheck d t r).settings := by
  rw [siteCheck_eq]
  split
  · simp [saveSettings, getSettings]
  · exact h

theorem globalCheck_sync (key : String) (r : Run)
    (h : getSettings r.storage = r.settings) :
    getSettings (globalCheck key r).storage = (globalCheck key r).settings := by
  rw [globalCheck_eq]
  split
  · simp [saveSettings, getSettings]
  · exact h

theorem siteCheck_potential (key d k : String) (t : Int) (r : Run)
    (h : staleNudgedToday key r.settings = false) :
    (nudgeKeys (siteCheck d t r).events).count k + unmarked key (siteCheck d t r).settings k ≤
      (nudgeKeys r.events).count k + unmarked key r.settings k := by
  rw [siteCheck_eq]
  split
  · rename_i hdue
    by_cases hk : k = d
    · subst hk
      have hu : unmarked key r.settings k = 1 := by
        simp only [siteDue, Bool.and_eq_true, Bool.not_eq_true'] at hdue
        simp [unmarked, markedToday, hdue.2]
      simp [nudgeKeys, eventKey, unmarked_mark_self key k _ h, hu, List.filterMap_append]
    · have hdk : ¬ d = k := fun e => hk e.symm
      simp [nudgeKeys, eventKey, unmarked_mark_other key k d _ h hk, List.filterMap_append,
        List.count_cons, hdk]
  · exact le_refl _

theorem globalCheck_potential (key k : String) (r : Run)
    (h : staleNudgedToday key r.settings = false) :
    (nudgeKeys (globalCheck key r).events).count k + unmarked key (globalCheck key r).settings k ≤
      (nudgeKeys r.events).count k + unmarked key r.settings k := by
  rw [globalCheck_eq]
  split
  · rename_i hdue
    by_cases hk : k = "__global__"
    · subst hk
      have hu : unmarked key r.settings "__global__" = 1 := by
        simp only [globalDue, Bool.and_eq_true, Bool.not_eq_true'] at hdue
        simp [unmarked, markedToday, hdue.2]
      simp [nudgeKeys, eventKey, unmarked_mark_self key _ _ h, hu, List.filterMap_append]
    · have hdk : ¬ "__global__" = k := fun e => hk e.symm
      simp [nudgeKeys, eventKey, unmarked_mark_other key k _ _ h hk, List.filterMap_append,
        List.count_cons, hdk]
  · exact le_refl _

theorem checkLimits_enabled (key d : String) (t : Int) (st : Storage)
    (h : (getSettings st).nudgeEnabled = true) :
    checkLimits key d t st = ((checkRun key d t st).storage, (checkRun key d t st).events) := by
  simp [checkLimits, checkRun, h]

theorem checkLimits_disabled (key d : String) (t : Int) (st : Storage)
    (h : (getSettings st).nudgeEnabled = false) :
    checkLimits key d t st = (st, []) := by
  simp [checkLimits, h]

theorem checkLimits_potential (key d k : String) (t : Int) (st : Storage) :
    (nudgeKeys (checkLimits key d t st).2).count k +
        unmarked key (getSettings (checkLimits key d t st).1) k ≤
      unmarked key (getSettings st) k := by
  cases hen : (getSettings st).nudgeEnabled with
  | false => simp [checkLimits_disabled key d t st hen, nudgeKeys]
  | true =>
    rw [checkLimits_enabled key d t st hen]
    have hf1 := initNudgedToday_fresh key { settings := getSettings st, storage := st, events := [] }
    have hs1 := initNudgedToday_sync key { settings := getSettings st, storage := st, events := [] } rfl
    have hf2 := siteCheck_fresh key d t _ hf1
    have hs2 := siteCheck_sync d t _ hs1
    have hs3 := globalCheck_sync key _ hs2
    have hp3 := globalCheck_potential key k _ hf2
    have hp2 := siteCheck_potential key d k t _ hf1
    have hk1 := initNudgedToday_keys key { settings := getSettings st, storage := st, events := [] }
    have hu1 := initNudgedToday_unmarked key k { settings := getSettings st, storage := st, events := [] }
    simp only [checkRun]
    rw [hs3]
    rw [hk1, hu1] at hp2
    simp only [nudgeKeys, List.filterMap_nil, List.count_nil, Nat.zero_add] at hp2
    simp only [nudgeKeys] at hp3 ⊢
    omega

theorem getSettings_saveTrackingData (key : String) (data : Obj Int) (st : Storage) :
    getSettings (saveTrackingData key data st) = getSettings st := rfl

theorem runOp_potential (key k : String) (op : Op) (st : Storage) :
    (nudgeKeys (runOp key op st).2).count k + unmarked key (getSettings (runOp key op st).1) k ≤
      unmarked key (getSettings st) k := by
  cases op with
  | check d t => exact checkLimits_potential key d k t st
  | update d s =>
    by_cases hd : d = ""
    · simp [runOp, updateTimeForSite, hd, nudgeKeys]
    · simp only [runOp]
      rw [updateTimeForSite_trackable key d s st hd]
      have h := checkLimits_potential key d k (orZero ((getTrackingData key st).get d) + s)
        (saveTrackingData key ((getTrackingData key st).set d
          (orZero ((getTrackingData key st).get d) + s)) st)
      rw [getSettings_saveTrackingData] at h
      simpa [nudgeKeys, eventKey] using h

theorem runOps_potential (key k : String) (ops : List Op) (st : Storage) :
    (nudgeKeys (runOps key ops st).2).count k +
        unmarked key (getSettings (runOps key ops st).1) k ≤
      unmarked key (getSettings st) k := by
  induction ops generalizing st with
  | nil => simp [runOps, nudgeKeys]
  | cons op rest ih =>
    have h1 := runOp_potential key k op st
    have h2 := ih (runOp key op st).1
    simp only [runOps, nudgeKeys, List.filterMap_append, List.count_append] at h1 h2 ⊢
    omega

theorem unmarked_le_one (key k : String) (s : Settings) : unmarked key s k ≤ 1 := by
  unfold unmarked
  split <;> omega

theorem siteNudgesFor_length_le (d : String) (evs : List Event) :
    (siteNudgesFor d evs).length ≤ (nudgeKeys evs).count d := by
  induction evs with
  | nil => simp [siteNudgesFor, nudgeKeys]
  | cons e rest ih =>
    simp only [siteNudgesFor, nudgeKeys] at ih ⊢
    cases e with
    | siteNudge n =>
      by_cases h : n.domain = d
      · simp [List.filterMap_cons, eventKey, h]
        exact ih
      · simp [List.filterMap_cons, eventKey, h, List.count_cons]
        exact ih
    | globalNudge n =>
      simp only [List.filterMap_cons, eventKey, List.count_cons]
      omega
    | saveSettings s => simpa [List.filterMap_cons, eventKey] using ih
    | saveTrackingData a b => simpa [List.filterMap_cons, eventKey] using ih
    | sendMessage a b => simpa [List.filterMap_cons, eventKey] using ih
    | removeTab a => simpa [List.filterMap_cons, eventKey] using ih

theorem globalNudges_length_le (evs : List Event) :
    (globalNudges evs).length ≤ (nudgeKeys evs).count "__global__" := by
  induction evs with
  | nil => simp [globalNudges, nudgeKeys]
  | cons e rest ih =>
    simp only [globalNudges, nudgeKeys] at ih ⊢
    cases e with
    | siteNudge n =>
      simp only [List.filterMap_cons, eventKey, List.count_cons]
      omega
    | globalNudge n =>
      simp [List.filterMap_cons, eventKey]
      exact ih
    | saveSettings s => simpa [List.filterMap_cons, eventKey] using ih
    | saveTrackingData a b => simpa [List.filterMap_cons, eventKey] using ih
    | sendMessage a b => simpa [List.filterMap_cons, eventKey] using ih
    | removeTab a => simpa [List.filterMap_cons, eventKey] using ih

/-- C2. Under one day key, whatever sequence of `updateTimeForSite` and `checkLimits`
invocations is run (each to completion) from whatever stored state, at most one site
nudge for any given domain and at most one global nudge are dispatched in total.  With
`limits["a.com"] = 60`, `updateTimeForSite("a.com", 60)` followed by two further
`checkLimits("a.com", 60)` calls dispatches exactly one site nudge for `a.com`. -/
theorem at_most_one_nudge_per_day :
    (∀ (key : String) (ops : List Op) (st : Storage) (d : String),
      (siteNudgesFor d (runOps key ops st).2).length ≤ 1 ∧
        (globalNudges (runOps key ops st).2).length ≤ 1) ∧
    siteNudgesFor "a.com"
      (runOps "tracking_2024-01-01"
        [Op.update "a.com" 60, Op.check "a.com" 60, Op.check "a.com" 60]
        { settings := some { nudgeEnabled := true, limits := [("a.com", 60)],
                             globalDailyLimit := some 14400,
                             nudgedToday := some { date := none, sites := [] } },
          buckets := [] }).2 =
      [{ domain := "a.com", timeSpent := 60, limit := 60 }] := by
  refine ⟨fun key ops st d => ⟨?_, ?_⟩, by decide⟩
  · have h1 := siteNudgesFor_length_le d (runOps key ops st).2
    have h2 := runOps_potential key d ops st
    have h3 := unmarked_le_one key d (getSettings st)
    omega
  · have h1 := globalNudges_length_le (runOps key ops st).2
    have h2 := runOps_potential key "__global__" ops st
    have h3 := unmarked_le_one key "__global__" (getSettings st)
    omega

/-! ## The site check and the global check -/

theorem initNudgedToday_limits (key : String) (r : Run) :
    (initNudgedToday key r).settings.limits = r.settings.limits ∧
      (initNudgedToday key r).settings.globalDailyLimit = r.settings.globalDailyLimit ∧
      (initNudgedToday key r).settings.nudgeEnabled = r.settings.nudgeEnabled := by
  unfold initNudgedToday
  split <;> simp

theorem initNudgedToday_marked (key k : String) (r : Run) :
    truthyFlag ((initNudgedToday key r).settings.sites.get k) = markedToday key r.settings k := by
  unfold initNudgedToday
  split
  · rename_i h
    simp [markedToday, h, Settings.sites, Obj.get, truthyFlag]
  · rename_i h
    simp [markedToday, h]

theorem mark_limits (s : Settings) (k : String) :
    (s.mark k).limits = s.limits ∧ (s.mark k).globalDailyLimit = s.globalDailyLimit ∧
      (s.mark k).nudgeEnabled = s.nudgeEnabled := by
  unfold Settings.mark
  split <;> simp

theorem siteCheck_events (d : String) (t : Int) (r : Run) :
    (siteCheck d t r).events = r.events ++
      (if siteDue r.settings d t then
        [Event.saveSettings (r.settings.mark d),
          Event.siteNudge ⟨d, t, orZero (r.settings.limits.get d)⟩]
      else []) := by
  rw [siteCheck_eq]
  split <;> simp

theorem siteCheck_settings (d : String) (t : Int) (r : Run) :
    (siteCheck d t r).settings = if siteDue r.settings d t then r.settings.mark d else r.settings := by
  rw [siteCheck_eq]
  split <;> simp

theorem globalCheck_events (key : String) (r : Run) :
    (globalCheck key r).events = r.events ++
      (if globalDue r.settings (totalTime (getTrackingData key r.storage)) then
        [Event.saveSettings (r.settings.mark "__global__"),
          Event.globalNudge ⟨"all sites", totalTime (getTrackingData key r.storage),
            orZero r.settings.globalDailyLimit⟩]
      else []) := by
  rw [globalCheck_eq]
  split <;> simp

theorem globalCheck_settings (key : String) (r : Run) :
    (globalCheck key r).settings =
      if globalDue r.settings (totalTime (getTrackingData key r.storage)) then
        r.settings.mark "__global__"
      else r.settings := by
  rw [globalCheck_eq]
  split <;> simp

theorem initNudgedToday_events (key : String) (r : Run) :
    (initNudgedToday key r).events = r.events ++
      (if staleNudgedToday key r.settings then
        [Event.saveSettings { r.settings with
          nudgedToday := some { date := some key, sites := [] } }]
      else []) := by
  unfold initNudgedToday
  split <;> simp

theorem mark_keeps (key k d : String) (s : Settings) (h : staleNudgedToday key s = false)
    (hd : s.sites.get d = some true) : (s.mark k).sites.get d = some true := by
  rw [mark_sites key k s h]
  by_cases hk : d = k
  · subst hk
    exact Obj.get_set_same _ _ _
  · rw [Obj.get_set_ne _ _ _ _ hk]
    exact hd

theorem checkRun_sync (key d : String) (t : Int) (st : Storage) :
    getSettings (checkRun key d t st).storage = (checkRun key d t st).settings :=
  globalCheck_sync key _ (siteCheck_sync d t _ (initNudgedToday_sync key _ rfl))

theorem checkRun_fresh (key d : String) (t : Int) (st : Storage) :
    staleNudgedToday key (checkRun key d t st).settings = false :=
  globalCheck_fresh key key _ (siteCheck_fresh key d t _ (initNudgedToday_fresh key _))

theorem siteDue_after_init (key d : String) (t l : Int) (st : Storage)
    (hl : (getSettings st).limits.get d = some l) (hl0 : l ≠ 0) (ht : l ≤ t)
    (hm : markedToday key (getSettings st) d = false) :
    siteDue (initNudgedToday key
      { settings := getSettings st, storage := st, events := [] }).settings d t = true := by
  unfold siteDue
  rw [initNudgedToday_marked, (initNudgedToday_limits key _).1]
  simp [hl, hm, truthyNum, orZero, hl0, ht]

theorem siteNudgesFor_append (d : String) (a b : List Event) :
    siteNudgesFor d (a ++ b) = siteNudgesFor d a ++ siteNudgesFor d b := by
  simp [siteNudgesFor, List.filterMap_append]

theorem globalNudges_append (a b : List Event) :
    globalNudges (a ++ b) = globalNudges a ++ globalNudges b := by
  simp [globalNudges, List.filterMap_append]

theorem initNudgedToday_no_nudge (key d : String) (st : Storage) :
    siteNudgesFor d (initNudgedToday key
        { settings := getSettings st, storage := st, events := [] }).events = [] ∧
      globalNudges (initNudgedToday key
        { settings := getSettings st, storage := st, events := [] }).events = [] := by
  rw [initNudgedToday_events]
  split <;> simp [siteNudgesFor, globalNudges]

theorem checkLimits_site_fires (key d : String) (t l : Int) (st : Storage)
    (hen : (getSettings st).nudgeEnabled = true)
    (hl : (getSettings st).limits.get d = some l) (hl0 : l ≠ 0) (ht : l ≤ t)
    (hm : markedToday key (getSettings st) d = false) :
    (∃ s, (checkLimits key d t st).1.settings = some s ∧ staleNudgedToday key s = false ∧
        s.sites.get d = some true) ∧
      siteNudgesFor d (checkLimits key d t st).2 = [⟨d, t, l⟩] ∧
      (∀ d2, d2 ≠ d → siteNudgesFor d2 (checkLimits key d t st).2 = []) ∧
      (∃ pre post s, (checkLimits key d t st).2 =
          pre ++ [Event.saveSettings s, Event.siteNudge ⟨d, t, l⟩] ++ post ∧
        s.sites.get d = some true ∧ siteNudgesFor d pre = [] ∧ siteNudgesFor d post = []) := by
  rw [checkLimits_enabled key d t st hen]
  have hdue := siteDue_after_init key d t l st hl hl0 ht hm
  have hf1 := initNudgedToday_fresh key { settings := getSettings st, storage := st, events := [] }
  have hlim : (initNudgedToday key
      { settings := getSettings st, storage := st, events := [] }).settings.limits.get d =
      some l := by rw [(initNudgedToday_limits key _).1]; exact hl
  have hmark : ((initNudgedToday key
      { settings := getSettings st, storage := st, events := [] }).settings.mark d).sites.get d =
      some true := by rw [mark_sites key d _ hf1]; exact Obj.get_set_same _ _ _
  have hset2 : (siteCheck d t (initNudgedToday key
      { settings := getSettings st, storage := st, events := [] })).settings =
      (initNudgedToday key
        { settings := getSettings st, storage := st, events := [] }).settings.mark d := by
    rw [siteCheck_settings, if_pos hdue]
  have hev2 : (siteCheck d t (initNudgedToday key
      { settings := getSettings st, storage := st, events := [] })).events =
      (initNudgedToday key { settings := getSettings st, storage := st, events := [] }).events ++
        [Event.saveSettings ((initNudgedToday key
            { settings := getSettings st, storage := st, events := [] }).settings.mark d),
          Event.siteNudge ⟨d, t, l⟩] := by
    rw [siteCheck_events, if_pos hdue, hlim]
    rfl
  have hf2 := siteCheck_fresh key d t _ hf1
  have hfin : (checkRun key d t st).settings.sites.get d = some true := by
    unfold checkRun
    rw [globalCheck_settings]
    split
    · apply mark_keeps key _ _ _ hf2
      rw [hset2]; exact hmark
    · rw [hset2]; exact hmark
  have hsync := checkRun_sync key d t st
  have hno := initNudgedToday_no_nudge key
  have hev3 : (checkRun key d t st).events =
      (initNudgedToday key { settings := getSettings st, storage := st, events := [] }).events ++
        [Event.saveSettings ((initNudgedToday key
            { settings := getSettings st, storage := st, events := [] }).settings.mark d),
          Event.siteNudge ⟨d, t, l⟩] ++
        (if globalDue (siteCheck d t (initNudgedToday key
              { settings := getSettings st, storage := st, events := [] })).settings
            (totalTime (getTrackingData key (siteCheck d t (initNudgedToday key
              { settings := getSettings st, storage := st, events := [] })).storage)) then
          [Event.saveSettings ((siteCheck d t (initNudgedToday key
              { settings := getSettings st, storage := st, events := [] })).settings.mark
                "__global__"),
            Event.globalNudge ⟨"all sites",
              totalTime (getTrackingData key (siteCheck d t (initNudgedToday key
                { settings := getSettings st, storage := st, events := [] })).storage),
              orZero (siteCheck d t (initNudgedToday key
                { settings := getSettings st, storage := st,
                  events := [] })).settings.globalDailyLimit⟩]
        else []) := by
    unfold checkRun
    rw [globalCheck_events, hev2]
  have hpost : ∀ d2, siteNudgesFor d2
      (if globalDue (siteCheck d t (initNudgedToday key
              { settings := getSettings st, storage := st, events := [] })).settings
            (totalTime (getTrackingData key (siteCheck d t (initNudgedToday key
              { settings := getSettings st, storage := st, events := [] })).storage)) then
          [Event.saveSettings ((siteCheck d t (initNudgedToday key
              { settings := getSettings st, storage := st, events := [] })).settings.mark
                "__global__"),
            Event.globalNudge ⟨"all sites",
              totalTime (getTrackingData key (siteCheck d t (initNudgedToday key
                { settings := getSettings st, storage := st, events := [] })).storage),
              orZero (siteCheck d t (initNudgedToday key
                { settings := getSettings st, storage := st,
                  events := [] })).settings.globalDailyLimit⟩]
        else []) = [] := by
    intro d2
    split <;> simp [siteNudgesFor]
  refine ⟨?_, ?_, ?_, ?_⟩
  · refine ⟨(checkRun key d t st).settings, ?_, checkRun_fresh key d t st, hfin⟩
    have h := hsync
    unfold getSettings at h
    have hstored : (checkRun key d t st).storage.settings ≠ none := by
      unfold checkRun
      rw [globalCheck_eq]
      split
      · simp [saveSettings]
      · rw [siteCheck_eq, if_pos hdue]
        simp [saveSettings]
    cases hs : (checkRun key d t st).storage.settings with
    | none => exact absurd hs hstored
    | some s =>
      rw [hs] at h
      simpa using h
  · show siteNudgesFor d (checkRun key d t st).events = _
    rw [hev3, siteNudgesFor_append, siteNudgesFor_append, (hno d st).1, hpost d]
    simp [siteNudgesFor]
  · intro d2 hne
    show siteNudgesFor d2 (checkRun key d t st).events = _
    rw [hev3, siteNudgesFor_append, siteNudgesFor_append, (hno d2 st).1, hpost d2]
    simp [siteNudgesFor, Ne.symm hne]
  · exact ⟨_, _, _, hev3, hmark, (hno d st).1, hpost d⟩

theorem checkLimits_zero_limit (key d : String) (t : Int) (st : Storage)
    (hl : (getSettings st).limits.get d = some 0) :
    siteNudgesFor d (checkLimits key d t st).2 = [] := by
  cases hen : (getSettings st).nudgeEnabled with
  | false => simp [checkLimits_disabled key d t st hen, siteNudgesFor]
  | true =>
    rw [checkLimits_enabled key d t st hen]
    have hdue : siteDue (initNudgedToday key
        { settings := getSettings st, storage := st, events := [] }).settings d t = false := by
      unfold siteDue
      rw [(initNudgedToday_limits key _).1, hl]
      simp [truthyNum]
    have hs2 : siteCheck d t (initNudgedToday key
        { settings := getSettings st, storage := st, events := [] }) =
        initNudgedToday key { settings := getSettings st, storage := st, events := [] } := by
      rw [siteCheck_eq, hdue]
      simp
    show siteNudgesFor d (checkRun key d t st).events = []
    unfold checkRun
    rw [globalCheck_events, hs2, siteNudgesFor_append, (initNudgedToday_no_nudge key d st).1]
    split <;> simp [siteNudgesFor]

/-- C3 (as amended). Let `nudgeEnabled` be true, `d` a domain that is not a property
name of `Object.prototype`, `l` the limit set for `d`, and `d` not marked after day
normalisation.  If `l` is not zero and `timeSpent >= l`, `checkLimits(d, timeSpent)`
leaves a persisted settings record of today carrying `sites[d] = true`, writes that mark
to the store immediately before dispatching, and dispatches exactly one site nudge, with
payload `(d, timeSpent, l)`; when the call comes from `updateTimeForSite(d, s)` under
one day key, the `timeSpent` of the payload is the updated ledger value of `d` (a safe
integer).  If `l` is zero, no site nudge for `d` is dispatched, whatever `timeSpent` is. -/
theorem site_check_fires (key d : String) (t l : Int) (st : Storage)
    (hen : (getSettings st).nudgeEnabled = true) (hplain : plainKey d = true)
    (hl : (getSettings st).limits.get d = some l)
    (hm : markedToday key (getSettings st) d = false) :
    (l ≠ 0 → l ≤ t →
      (∃ s, (checkLimits key d t st).1.settings = some s ∧ staleNudgedToday key s = false ∧
          s.sites.get d = some true) ∧
        siteNudgesFor d (checkLimits key d t st).2 = [⟨d, t, l⟩] ∧
        (∀ d2, d2 ≠ d → siteNudgesFor d2 (checkLimits key d t st).2 = []) ∧
        (∃ pre post s, (checkLimits key d t st).2 =
            pre ++ [Event.saveSettings s, Event.siteNudge ⟨d, t, l⟩] ++ post ∧
          s.sites.get d = some true ∧ siteNudgesFor d pre = [] ∧
          siteNudgesFor d post = [])) ∧
      (l ≠ 0 → ∀ s : Int, d ≠ "" →
        safeInt (orZero ((getTrackingData key st).get d)) = true → safeInt s = true →
        safeInt (orZero ((getTrackingData key st).get d) + s) = true →
        l ≤ orZero ((getTrackingData key st).get d) + s →
        (getTrackingData key (updateTimeForSite key (some d) s st).1).get d =
            some (orZero ((getTrackingData key st).get d) + s) ∧
          siteNudgesFor d (updateTimeForSite key (some d) s st).2 =
            [⟨d, orZero ((getTrackingData key st).get d) + s, l⟩] ∧
          (∃ s2, (updateTimeForSite key (some d) s st).1.settings = some s2 ∧
            s2.sites.get d = some true)) ∧
      (l = 0 →
        siteNudgesFor d (checkLimits key d t st).2 = [] ∧
          ∀ s : Int, siteNudgesFor d (updateTimeForSite key (some d) s st).2 = []) := by
  refine ⟨?_, ?_, ?_⟩
  · intro hl0 ht
    exact checkLimits_site_fires key d t l st hen hl hl0 ht hm
  · intro hl0 s hd _ _ _ hs
    have hu := updateTimeForSite_trackable key d s st hd
    obtain ⟨⟨s2, g1, _, g3⟩, g2, _, _⟩ := checkLimits_site_fires key d
      (orZero ((getTrackingData key st).get d) + s) l
      (saveTrackingData key ((getTrackingData key st).set d
        (orZero ((getTrackingData key st).get d) + s)) st) hen hl hl0 hs hm
    refine ⟨?_, ?_, ?_⟩
    · rw [updateTimeForSite_ledger key d s st hd, Obj.get_set_same]
    · rw [hu]
      show siteNudgesFor d ([Event.saveTrackingData key _] ++ _) = _
      rw [siteNudgesFor_append, g2]
      simp [siteNudgesFor]
    · rw [hu]
      exact ⟨s2, g1, g3⟩
  · intro hl0
    rw [hl0] at hl
    refine ⟨checkLimits_zero_limit key d t st hl, ?_⟩
    intro s
    by_cases hd : d = ""
    · simp [updateTimeForSite, hd, siteNudgesFor]
    · rw [updateTimeForSite_trackable key d s st hd]
      show siteNudgesFor d ([Event.saveTrackingData key _] ++ _) = _
      rw [siteNudgesFor_append, checkLimits_zero_limit key d
        (orZero ((getTrackingData key st).get d) + s)
        (saveTrackingData key ((getTrackingData key st).set d
          (orZero ((getTrackingData key st).get d) + s)) st) hl]
      simp [siteNudgesFor]

/-- The site check at a concrete state: limit 60 reached by `a.com`. -/
theorem site_check_fires_witness :
    siteNudgesFor "a.com" (checkLimits "tracking_2024-01-01" "a.com" 75
      { settings := some { nudgeEnabled := true, limits := [("a.com", 60)],
                           globalDailyLimit := some 14400, nudgedToday := none },
        buckets := [("tracking_2024-01-01", [("a.com", 75)])] }).2 =
      [{ domain := "a.com", timeSpent := 75, limit := 60 }] :=
  ((site_check_fires "tracking_2024-01-01" "a.com" 75 60
    { settings := some { nudgeEnabled := true, limits := [("a.com", 60)],
                         globalDailyLimit := some 14400, nudgedToday := none },
      buckets := [("tracking_2024-01-01", [("a.com", 75)])] }
    rfl (by decide) rfl rfl).1 (by decide) (by decide)).2.1

/-- C3 (as stated) fails for a limit of 0 seconds: the limit is set, the ledger value
is at least the limit and the domain is not marked, yet `checkLimits` dispatches no
site nudge and sets no mark, because the test `siteLimit && ...` treats 0 as unset. -/
theorem site_check_zero_limit_silent :
    (getSettings
      { settings := some { nudgeEnabled := true, limits := [("a.com", 0)],
                           globalDailyLimit := some 14400,
                           nudgedToday := some { date := some "tracking_2024-01-01",
                                                 sites := [] } },
        buckets := [("tracking_2024-01-01", [("a.com", 5)])] }).limits.get "a.com" = some 0 ∧
    (getTrackingData "tracking_2024-01-01"
      { settings := some { nudgeEnabled := true, limits := [("a.com", 0)],
                           globalDailyLimit := some 14400,
                           nudgedToday := some { date := some "tracking_2024-01-01",
                                                 sites := [] } },
        buckets := [("tracking_2024-01-01", [("a.com", 5)])] }).get "a.com" = some 5 ∧
    siteNudgesFor "a.com" (checkLimits "tracking_2024-01-01" "a.com" 5
      { settings := some { nudgeEnabled := true, limits := [("a.com", 0)],
                           globalDailyLimit := some 14400,
                           nudgedToday := some { date := some "tracking_2024-01-01",
                                                 sites := [] } },
        buckets := [("tracking_2024-01-01", [("a.com", 5)])] }).2 = [] ∧
    (getSettings (checkLimits "tracking_2024-01-01" "a.com" 5
      { settings := some { nudgeEnabled := true, limits := [("a.com", 0)],
                           globalDailyLimit := some 14400,
                           nudgedToday := some { date := some "tracking_2024-01-01",
                                                 sites := [] } },
        buckets := [("tracking_2024-01-01", [("a.com", 5)])] }).1).sites.get "a.com" = none := by
  decide

theorem siteCheck_limits (d : String) (t : Int) (r : Run) :
    (siteCheck d t r).settings.globalDailyLimit = r.settings.globalDailyLimit ∧
      (siteCheck d t r).settings.limits = r.settings.limits := by
  rw [siteCheck_settings]
  split
  · exact ⟨(mark_limits _ _).2.1, (mark_limits _ _).1⟩
  · exact ⟨rfl, rfl⟩

theorem siteCheck_other_mark (key d k : String) (t : Int) (r : Run)
    (h : staleNudgedToday key r.settings = false) (hk : k ≠ d) :
    (siteCheck d t r).settings.sites.get k = r.settings.sites.get k := by
  rw [siteCheck_settings]
  split
  · rw [mark_sites key d _ h, Obj.get_set_ne _ _ _ _ hk]
  · rfl

theorem globalCheck_other_mark (key k : String) (r : Run)
    (h : staleNudgedToday key r.settings = false) (hk : k ≠ "__global__") :
    (globalCheck key r).settings.sites.get k = r.settings.sites.get k := by
  rw [globalCheck_settings]
  split
  · rw [mark_sites key _ _ h, Obj.get_set_ne _ _ _ _ hk]
  · rfl

theorem getTrackingData_congr (key : String) (a b : Storage) (h : a.buckets = b.buckets) :
    getTrackingData key a = getTrackingData key b := by
  simp [getTrackingData, h]

theorem siteCheck_no_global (d : String) (t : Int) (r : Run) :
    globalNudges (siteCheck d t r).events = globalNudges r.events := by
  rw [siteCheck_events, globalNudges_append]
  split <;> simp [globalNudges]

theorem globalCheck_no_site (key d : String) (r : Run) :
    siteNudgesFor d (globalCheck key r).events = siteNudgesFor d r.events := by
  rw [globalCheck_events, siteNudgesFor_append]
  split <;> simp [siteNudgesFor]

/-- The run state when the global check starts. -/
theorem beforeGlobal_facts (key d : String) (t : Int) (st : Storage) :
    staleNudgedToday key (siteCheck d t (initNudgedToday key
        { settings := getSettings st, storage := st, events := [] })).settings = false ∧
      (siteCheck d t (initNudgedToday key
        { settings := getSettings st, storage := st, events := [] })).settings.globalDailyLimit =
        (getSettings st).globalDailyLimit ∧
      getTrackingData key (siteCheck d t (initNudgedToday key
        { settings := getSettings st, storage := st, events := [] })).storage =
        getTrackingData key st ∧
      globalNudges (siteCheck d t (initNudgedToday key
        { settings := getSettings st, storage := st, events := [] })).events = [] ∧
      (d ≠ "__global__" →
        truthyFlag ((siteCheck d t (initNudgedToday key
          { settings := getSettings st, storage := st, events := [] })).settings.sites.get
            "__global__") = markedToday key (getSettings st) "__global__") := by
  have hf1 := initNudgedToday_fresh key { settings := getSettings st, storage := st, events := [] }
  refine ⟨siteCheck_fresh key d t _ hf1, ?_, ?_, ?_, ?_⟩
  · rw [(siteCheck_limits d t _).1, (initNudgedToday_limits key _).2.1]
  · apply getTrackingData_congr
    rw [siteCheck_buckets, initNudgedToday_buckets]
  · rw [siteCheck_no_global]
    exact (initNudgedToday_no_nudge key d st).2
  · intro hd
    rw [siteCheck_other_mark key d _ t _ hf1 (Ne.symm hd), initNudgedToday_marked]

theorem checkLimits_global_facts (key d : String) (t g : Int) (st : Storage)
    (hen : (getSettings st).nudgeEnabled = true)
    (hg : (getSettings st).globalDailyLimit = some g) (hg0 : g ≠ 0)
    (hd : d ≠ "__global__")
    (hm : markedToday key (getSettings st) "__global__" = false) :
    (g ≤ totalTime (getTrackingData key st) →
      (∃ s, (checkLimits key d t st).1.settings = some s ∧ staleNudgedToday key s = false ∧
          s.sites.get "__global__" = some true) ∧
        globalNudges (checkLimits key d t st).2 =
          [⟨"all sites", totalTime (getTrackingData key st), g⟩] ∧
        (∃ pre s, (checkLimits key d t st).2 =
            pre ++ [Event.saveSettings s,
              Event.globalNudge ⟨"all sites", totalTime (getTrackingData key st), g⟩] ∧
          s.sites.get "__global__" = some true ∧ globalNudges pre = [])) ∧
    (totalTime (getTrackingData key st) < g →
      globalNudges (checkLimits key d t st).2 = [] ∧
        markedToday key (getSettings (checkLimits key d t st).1) "__global__" = false) := by
  obtain ⟨hf2, hlim, hdata, hnog, hmk⟩ := beforeGlobal_facts key d t st
  have hmk2 := hmk hd
  rw [hm] at hmk2
  rw [checkLimits_enabled key d t st hen]
  have hsync := checkRun_sync key d t st
  constructor
  · intro htot
    have hdue : globalDue (siteCheck d t (initNudgedToday key
        { settings := getSettings st, storage := st, events := [] })).settings
        (totalTime (getTrackingData key (siteCheck d t (initNudgedToday key
          { settings := getSettings st, storage := st, events := [] })).storage)) = true := by
      unfold globalDue
      rw [hlim, hdata, hmk2, hg]
      simp [truthyNum, orZero, hg0, htot]
    have hmark := mark_sites key "__global__" _ hf2
    have hrun : checkRun key d t st =
        { settings := (siteCheck d t (initNudgedToday key
            { settings := getSettings st, storage := st, events := [] })).settings.mark
              "__global__",
          storage := saveSettings ((siteCheck d t (initNudgedToday key
            { settings := getSettings st, storage := st, events := [] })).settings.mark
              "__global__") (siteCheck d t (initNudgedToday key
            { settings := getSettings st, storage := st, events := [] })).storage,
          events := (siteCheck d t (initNudgedToday key
            { settings := getSettings st, storage := st, events := [] })).events ++
            [Event.saveSettings ((siteCheck d t (initNudgedToday key
              { settings := getSettings st, storage := st, events := [] })).settings.mark
                "__global__"),
              Event.globalNudge ⟨"all sites", totalTime (getTrackingData key st), g⟩] } := by
      unfold checkRun
      rw [globalCheck_eq, if_pos hdue, hdata, hlim, hg]
      rfl
    rw [hrun]
    refine ⟨⟨_, rfl, mark_fresh key _ _ hf2, ?_⟩, ?_, ⟨_, _, rfl, ?_, hnog⟩⟩
    · rw [hmark]; exact Obj.get_set_same _ _ _
    · show globalNudges (_ ++ _) = _
      rw [globalNudges_append, hnog]
      simp [globalNudges]
    · rw [hmark]; exact Obj.get_set_same _ _ _
  · intro htot
    have hdue : globalDue (siteCheck d t (initNudgedToday key
        { settings := getSettings st, storage := st, events := [] })).settings
        (totalTime (getTrackingData key (siteCheck d t (initNudgedToday key
          { settings := getSettings st, storage := st, events := [] })).storage)) = false := by
      unfold globalDue
      rw [hlim, hdata, hmk2, hg]
      simp [truthyNum, orZero, hg0, htot]
    have hrun : checkRun key d t st = siteCheck d t (initNudgedToday key
        { settings := getSettings st, storage := st, events := [] }) := by
      unfold checkRun
      rw [globalCheck_eq, hdue]
      simp
    rw [hrun] at hsync ⊢
    refine ⟨hnog, ?_⟩
    show markedToday key (getSettings _) "__global__" = false
    rw [hsync]
    simp [markedToday, hf2, hmk2]

/-- C4 (as amended). With `nudgeEnabled` true, a `globalDailyLimit` `g` that is set and
not zero, a checked domain other than the string `__global__`, no `__global__` mark after
day normalisation, and `total` the sum of today's bucket: if `total >= g`, `checkLimits`
persists a settings record of today with `sites["__global__"] = true`, the write coming
immediately before the dispatch, and dispatches exactly one global nudge, with payload
`("all sites", total, g)`; if `total < g` it dispatches no global nudge and the
`__global__` mark stays unset. -/
theorem global_check_fires (key d : String) (t g : Int) (st : Storage)
    (hen : (getSettings st).nudgeEnabled = true)
    (hg : (getSettings st).globalDailyLimit = some g) (hg0 : g ≠ 0)
    (hd : d ≠ "__global__")
    (hm : markedToday key (getSettings st) "__global__" = false) :
    (g ≤ totalTime (getTrackingData key st) →
      (∃ s, (checkLimits key d t st).1.settings = some s ∧ staleNudgedToday key s = false ∧
          s.sites.get "__global__" = some true) ∧
        globalNudges (checkLimits key d t st).2 =
          [⟨"all sites", totalTime (getTrackingData key st), g⟩] ∧
        (∃ pre s, (checkLimits key d t st).2 =
            pre ++ [Event.saveSettings s,
              Event.globalNudge ⟨"all sites", totalTime (getTrackingData key st), g⟩] ∧
          s.sites.get "__global__" = some true ∧ globalNudges pre = [])) ∧
    (totalTime (getTrackingData key st) < g →
      globalNudges (checkLimits key d t st).2 = [] ∧
        markedToday key (getSettings (checkLimits key d t st).1) "__global__" = false) :=
  checkLimits_global_facts key d t g st hen hg hg0 hd hm

/-- The global check at a concrete state: a total of 150 seconds reaches the limit 100. -/
theorem global_check_fires_witness :
    globalNudges (checkLimits "tracking_2024-01-01" "a.com" 90
      { settings := some { nudgeEnabled := true, limits := [],
                           globalDailyLimit := some 100, nudgedToday := none },
        buckets := [("tracking_2024-01-01", [("a.com", 90), ("b.org", 60)])] }).2 =
      [{ domain := "all sites", timeSpent := 150, limit := 100 }] :=
  ((global_check_fires "tracking_2024-01-01" "a.com" 90 100
    { settings := some { nudgeEnabled := true, limits := [],
                         globalDailyLimit := some 100, nudgedToday := none },
      buckets := [("tracking_2024-01-01", [("a.com", 90), ("b.org", 60)])] }
    rfl rfl (by decide) (by decide) rfl).1 (by decide)).2.1

/-- C4 (as stated) fails in two places.  When the checked domain is the string
`__global__` and its own site limit is reached, the site branch sets the `__global__`
mark although the total (60) is below the global limit (14400).  And a
`globalDailyLimit` of 0 is set and reached by every total, yet no global nudge is
dispatched, because the test `settings.globalDailyLimit && ...` treats 0 as unset. -/
theorem global_check_sentinel_and_zero :
    (totalTime (getTrackingData "tracking_2024-01-01"
        { settings := some { nudgeEnabled := true, limits := [("__global__", 60)],
                             globalDailyLimit := some 14400,
                             nudgedToday := some { date := some "tracking_2024-01-01",
                                                   sites := [] } },
          buckets := [("tracking_2024-01-01", [("__global__", 60)])] }) < 14400 ∧
      (getSettings (checkLimits "tracking_2024-01-01" "__global__" 60
        { settings := some { nudgeEnabled := true, limits := [("__global__", 60)],
                             globalDailyLimit := some 14400,
                             nudgedToday := some { date := some "tracking_2024-01-01",
                                                   sites := [] } },
          buckets := [("tracking_2024-01-01", [("__global__", 60)])] }).1).sites.get
            "__global__" = some true) ∧
    (0 ≤ totalTime (getTrackingData "tracking_2024-01-01"
        { settings := some { nudgeEnabled := true, limits := [],
                             globalDailyLimit := some 0,
                             nudgedToday := some { date := some "tracking_2024-01-01",
                                                   sites := [] } },
          buckets := [("tracking_2024-01-01", [("a.com", 5)])] }) ∧
      globalNudges (checkLimits "tracking_2024-01-01" "a.com" 5
        { settings := some { nudgeEnabled := true, limits := [],
                             globalDailyLimit := some 0,
                             nudgedToday := some { date := some "tracking_2024-01-01",
                                                   sites := [] } },
          buckets := [("tracking_2024-01-01", [("a.com", 5)])] }).2 = []) := by
  decide

/-! ## The on-demand check and the disabled engine -/

/-- C5 (as amended). For every non-empty domain `d` that is not a property name of
`Object.prototype`, valid `tabId`, ledger and settings
with `nudgeEnabled` true, a limit `l` for `d` that is not zero and `ledger[d] >= l`
(an absent entry counting as 0), `handleCheckLimit(d, tabId)` sends exactly one message
`SHOW_NUDGE` with payload `(d, ledger[d], l)` to that tab, and does so whatever
`nudgedToday` holds. -/
theorem on_demand_check_ignores_suppression (key d : String) (tab : Nat) (l : Int)
    (st : Storage) (hd : d ≠ "") (hplain : plainKey d = true) (htab : tab ≠ 0)
    (hen : (getSettings st).nudgeEnabled = true)
    (hl : (getSettings st).limits.get d = some l) (hl0 : l ≠ 0)
    (ht : l ≤ orZero ((getTrackingData key st).get d)) :
    handleCheckLimit key (some d) (some tab) st =
        [Event.sendMessage tab ⟨d, orZero ((getTrackingData key st).get d), l⟩] ∧
      ∀ nt : Option NudgedToday,
        handleCheckLimit key (some d) (some tab)
            (saveSettings { getSettings st with nudgedToday := nt } st) =
          [Event.sendMessage tab ⟨d, orZero ((getTrackingData key st).get d), l⟩] := by
  constructor
  · simp [handleCheckLimit, hd, htab, hl, hl0, ht, hen]
  · intro nt
    have hl2 : (getSettings st).limits.get d = some l := hl
    simp [handleCheckLimit, hd, htab, hl0, hen, saveSettings, getSettings, getTrackingData]
    simp [getSettings] at hl2 hen
    simp [getTrackingData] at ht
    simp [hl2, hl0, ht, hen]

/-- The on-demand check on a domain already marked as nudged today. -/
theorem on_demand_check_ignores_suppression_witness :
    handleCheckLimit "tracking_2024-01-01" (some "a.com") (some 7)
      { settings := some { nudgeEnabled := true, limits := [("a.com", 60)],
                           globalDailyLimit := some 14400,
                           nudgedToday := some { date := some "tracking_2024-01-01",
                                                 sites := [("a.com", true)] } },
        buckets := [("tracking_2024-01-01", [("a.com", 75)])] } =
      [Event.sendMessage 7 { domain := "a.com", timeSpent := 75, limit := 60 }] :=
  (on_demand_check_ignores_suppression "tracking_2024-01-01" "a.com" 7 60
    { settings := some { nudgeEnabled := true, limits := [("a.com", 60)],
                         globalDailyLimit := some 14400,
                         nudgedToday := some { date := some "tracking_2024-01-01",
                                               sites := [("a.com", true)] } },
      buckets := [("tracking_2024-01-01", [("a.com", 75)])] }
    (by decide) (by decide) (by decide) rfl rfl (by decide) (by decide)).1

/-- C5 (as stated) fails when nudges are switched off: the limit of `a.com` is set and
reached and the tab id is valid, yet `handleCheckLimit` sends nothing, because its test
ends in `&& settings.nudgeEnabled`. -/
theorem on_demand_check_silent_when_disabled :
    (getSettings
      { settings := some { nudgeEnabled := false, limits := [("a.com", 60)],
                           globalDailyLimit := some 14400,
                           nudgedToday := some { date := some "tracking_2024-01-01",
                                                 sites := [("a.com", true)] } },
        buckets := [("tracking_2024-01-01", [("a.com", 75)])] }).limits.get "a.com" =
      some 60 ∧
    (getTrackingData "tracking_2024-01-01"
      { settings := some { nudgeEnabled := false, limits := [("a.com", 60)],
                           globalDailyLimit := some 14400,
                           nudgedToday := some { date := some "tracking_2024-01-01",
                                                 sites := [("a.com", true)] } },
        buckets := [("tracking_2024-01-01", [("a.com", 75)])] }).get "a.com" = some 75 ∧
    handleCheckLimit "tracking_2024-01-01" (some "a.com") (some 7)
      { settings := some { nudgeEnabled := false, limits := [("a.com", 60)],
                           globalDailyLimit := some 14400,
                           nudgedToday := some { date := some "tracking_2024-01-01",
                                                 sites := [("a.com", true)] } },
        buckets := [("tracking_2024-01-01", [("a.com", 75)])] } = [] := by
  decide

/-- C6. For every stored settings record with `nudgeEnabled = false`, every domain,
`timeSpent` and ledger, `checkLimits` performs no action at all (no nudge, no write)
and returns the store unchanged, so the stored `nudgedToday`, stale or not, is kept as
it was. -/
theorem disabled_engine_is_inert (key d : String) (t : Int) (limits : Obj Int)
    (g : Option Int) (nt : Option NudgedToday) (buckets : Obj (Obj Int)) :
    checkLimits key d t
        { settings := some { nudgeEnabled := false, limits := limits,
                             globalDailyLimit := g, nudgedToday := nt },
          buckets := buckets } =
      ({ settings := some { nudgeEnabled := false, limits := limits,
                            globalDailyLimit := g, nudgedToday := nt },
         buckets := buckets }, []) := by
  simp [checkLimits, getSettings]

/-! ## Day rollover of the suppression map -/

theorem initNudgedToday_idem (key : String) (r : Run) :
    initNudgedToday key (initNudgedToday key r) = initNudgedToday key r :=
  initNudgedToday_of_fresh key _ (initNudgedToday_fresh key r)

theorem checkLimits_fresh (key d : String) (t : Int) (st : Storage)
    (hen : (getSettings st).nudgeEnabled = true) :
    staleNudgedToday key (getSettings (checkLimits key d t st).1) = false := by
  rw [checkLimits_enabled key d t st hen]
  show staleNudgedToday key (getSettings (checkRun key d t st).storage) = false
  rw [checkRun_sync]
  exact checkRun_fresh key d t st

/-- C7. In `checkLimits`, when `nudgedToday` is absent or its `date` differs from
today's key, the initialisation block makes `nudgedToday` exactly
`{date: todayKey, sites: {}}`, leaves the other settings fields alone and writes the
record to the store; with nudges enabled this write is the first action of
`checkLimits` and the limit checks then run on the reset record, so the actions of
`checkLimits` do not depend on what the stale record held, and a reached limit of a
domain that is not a property name of `Object.prototype` is nudged whatever marks the
stale record carried.  The block is idempotent:
applied again under the same day key it changes nothing and writes nothing, and after a
completed `checkLimits` the stored record is of today, so the next invocation performs
no reset. -/
theorem day_rollover_normalization (key d : String) (t : Int) (st : Storage)
    (hstale : staleNudgedToday key (getSettings st) = true) :
    (initNudgedToday key
        { settings := getSettings st, storage := st, events := [] }).settings.nudgedToday =
        some { date := some key, sites := [] } ∧
      initNudgedToday key { settings := getSettings st, storage := st, events := [] } =
        { settings := resetNudgedToday key (getSettings st),
          storage := saveSettings (resetNudgedToday key (getSettings st)) st,
          events := [Event.saveSettings (resetNudgedToday key (getSettings st))] } ∧
      ((getSettings st).nudgeEnabled = true →
        checkLimits key d t st =
          ((globalCheck key (siteCheck d t
              { settings := resetNudgedToday key (getSettings st),
                storage := saveSettings (resetNudgedToday key (getSettings st)) st,
                events := [Event.saveSettings (resetNudgedToday key (getSettings st))] })).storage,
            (globalCheck key (siteCheck d t
              { settings := resetNudgedToday key (getSettings st),
                storage := saveSettings (resetNudgedToday key (getSettings st)) st,
                events := [Event.saveSettings (resetNudgedToday key (getSettings st))] })).events) ∧
        (∃ rest, (checkLimits key d t st).2 =
          Event.saveSettings (resetNudgedToday key (getSettings st)) :: rest) ∧
        (∀ nt : Option NudgedToday,
          staleNudgedToday key (withNudgedToday (getSettings st) nt) = true →
          checkLimits key d t (saveSettings (withNudgedToday (getSettings st) nt) st) =
            checkLimits key d t st) ∧
        (plainKey d = true →
          ∀ l : Int, (getSettings st).limits.get d = some l → l ≠ 0 → l ≤ t →
            siteNudgesFor d (checkLimits key d t st).2 = [⟨d, t, l⟩]) ∧
        initNudgedToday key
            { settings := getSettings (checkLimits key d t st).1,
              storage := (checkLimits key d t st).1, events := [] } =
          { settings := getSettings (checkLimits key d t st).1,
            storage := (checkLimits key d t st).1, events := [] }) ∧
      (∀ r : Run, initNudgedToday key (initNudgedToday key r) = initNudgedToday key r) := by
  have hinit : initNudgedToday key { settings := getSettings st, storage := st, events := [] } =
        { settings := resetNudgedToday key (getSettings st),
          storage := saveSettings (resetNudgedToday key (getSettings st)) st,
          events := [Event.saveSettings (resetNudgedToday key (getSettings st))] } := by
    simp [initNudgedToday, hstale, saveSettings, resetNudgedToday]
  refine ⟨by rw [hinit]; rfl, hinit, ?_, initNudgedToday_idem key⟩
  intro hen
  have hrun : checkLimits key d t st = _ := checkLimits_enabled key d t st hen
  unfold checkRun at hrun
  rw [hinit] at hrun
  refine ⟨hrun, ?_, ?_, ?_, ?_⟩
  · rw [hrun]
    simp only [globalCheck_events, siteCheck_events, List.append_assoc, List.singleton_append]
    exact ⟨_, rfl⟩
  · intro nt hnt
    have hen2 : (getSettings (saveSettings (withNudgedToday (getSettings st) nt) st)).nudgeEnabled =
        true := hen
    rw [checkLimits_enabled key d t _ hen2, checkLimits_enabled key d t st hen]
    have hsame : initNudgedToday key
        { settings := getSettings (saveSettings (withNudgedToday (getSettings st) nt) st),
          storage := saveSettings (withNudgedToday (getSettings st) nt) st, events := [] } =
        initNudgedToday key { settings := getSettings st, storage := st, events := [] } := by
      rw [hinit]
      show initNudgedToday key
        { settings := withNudgedToday (getSettings st) nt,
          storage := saveSettings (withNudgedToday (getSettings st) nt) st, events := [] } = _
      unfold initNudgedToday
      dsimp only
      rw [if_pos hnt]
      simp [resetNudgedToday, withNudgedToday, saveSettings]
    unfold checkRun
    rw [hsame]
  · intro _ l hl hl0 ht
    have hm : markedToday key (getSettings st) d = false := by simp [markedToday, hstale]
    exact (checkLimits_site_fires key d t l st hen hl hl0 ht hm).2.1
  · exact initNudgedToday_of_fresh key _ (checkLimits_fresh key d t st hen)

/-- Day rollover at a concrete state: a mark left by the previous day does not keep
today's nudge for `a.com` from being dispatched. -/
theorem day_rollover_normalization_witness :
    siteNudgesFor "a.com" (checkLimits "tracking_2024-01-02" "a.com" 75
      { settings := some { nudgeEnabled := true, limits := [("a.com", 60)],
                           globalDailyLimit := some 14400,
                           nudgedToday := some { date := some "tracking_2024-01-01",
                                                 sites := [("a.com", true)] } },
        buckets := [("tracking_2024-01-02", [("a.com", 75)])] }).2 =
      [{ domain := "a.com", timeSpent := 75, limit := 60 }] :=
  ((day_rollover_normalization "tracking_2024-01-02" "a.com" 75
    { settings := some { nudgeEnabled := true, limits := [("a.com", 60)],
                         globalDailyLimit := some 14400,
                         nudgedToday := some { date := some "tracking_2024-01-01",
                                               sites := [("a.com", true)] } },
      buckets := [("tracking_2024-01-02", [("a.com", 75)])] }
    (by decide)).2.2.1 rfl).2.2.2.1 (by decide) 60 rfl (by decide) (by decide)

/-! ## Independence of site and global suppression -/

theorem checkRun_frame (key d : String) (t : Int) (st : Storage) :
    (checkRun key d t st).settings.limits = (getSettings st).limits ∧
      (checkRun key d t st).settings.globalDailyLimit = (getSettings st).globalDailyLimit ∧
      (checkRun key d t st).settings.nudgeEnabled = (getSettings st).nudgeEnabled := by
  have h1 := initNudgedToday_limits key { settings := getSettings st, storage := st, events := [] }
  have h2 : ∀ r : Run, (siteCheck d t r).settings.limits = r.settings.limits ∧
      (siteCheck d t r).settings.globalDailyLimit = r.settings.globalDailyLimit ∧
      (siteCheck d t r).settings.nudgeEnabled = r.settings.nudgeEnabled := by
    intro r
    rw [siteCheck_settings]
    split
    · exact mark_limits _ _
    · exact ⟨rfl, rfl, rfl⟩
  have h3 : ∀ r : Run, (globalCheck key r).settings.limits = r.settings.limits ∧
      (globalCheck key r).settings.globalDailyLimit = r.settings.globalDailyLimit ∧
      (globalCheck key r).settings.nudgeEnabled = r.settings.nudgeEnabled := by
    intro r
    rw [globalCheck_settings]
    split
    · exact mark_limits _ _
    · exact ⟨rfl, rfl, rfl⟩
  unfold checkRun
  refine ⟨?_, ?_, ?_⟩
  · rw [(h3 _).1, (h2 _).1, h1.1]
  · rw [(h3 _).2.1, (h2 _).2.1, h1.2.1]
  · rw [(h3 _).2.2, (h2 _).2.2, h1.2.2]

theorem checkLimits_frame (key d : String) (t : Int) (st : Storage) :
    (getSettings (checkLimits key d t st).1).limits = (getSettings st).limits ∧
      (getSettings (checkLimits key d t st).1).globalDailyLimit =
        (getSettings st).globalDailyLimit ∧
      (getSettings (checkLimits key d t st).1).nudgeEnabled = (getSettings st).nudgeEnabled := by
  cases hen : (getSettings st).nudgeEnabled with
  | false =>
    rw [checkLimits_disabled key d t st hen]
    exact ⟨rfl, rfl, hen⟩
  | true =>
    rw [checkLimits_enabled key d t st hen]
    show (getSettings (checkRun key d t st).storage).limits = _ ∧
      (getSettings (checkRun key d t st).storage).globalDailyLimit = _ ∧
      (getSettings (checkRun key d t st).storage).nudgeEnabled = _
    rw [checkRun_sync]
    have h := checkRun_frame key d t st
    rw [hen] at h
    exact h

theorem checkLimits_site_idle (key d : String) (t : Int) (st : Storage)
    (hen : (getSettings st).nudgeEnabled = true) (hd : d ≠ "__global__")
    (hsite : ∀ l, (getSettings st).limits.get d = some l → t < l) :
    siteNudgesFor d (checkLimits key d t st).2 = [] ∧
      markedToday key (getSettings (checkLimits key d t st).1) d =
        markedToday key (getSettings st) d := by
  have hf1 := initNudgedToday_fresh key { settings := getSettings st, storage := st, events := [] }
  have hf2 := siteCheck_fresh key d t _ hf1
  have hdue : siteDue (initNudgedToday key
      { settings := getSettings st, storage := st, events := [] }).settings d t = false := by
    unfold siteDue
    rw [(initNudgedToday_limits key _).1]
    cases hl : (getSettings st).limits.get d with
    | none => simp [truthyNum]
    | some l =>
      have := hsite l hl
      simp [truthyNum, orZero, this]
  have hs2 : siteCheck d t (initNudgedToday key
      { settings := getSettings st, storage := st, events := [] }) =
      initNudgedToday key { settings := getSettings st, storage := st, events := [] } := by
    rw [siteCheck_eq, hdue]
    simp
  rw [checkLimits_enabled key d t st hen]
  constructor
  · show siteNudgesFor d (checkRun key d t st).events = []
    unfold checkRun
    rw [globalCheck_no_site, hs2]
    exact (initNudgedToday_no_nudge key d st).1
  · show markedToday key (getSettings (checkRun key d t st).storage) d = _
    rw [checkRun_sync]
    unfold markedToday
    rw [checkRun_fresh]
    unfold checkRun
    rw [globalCheck_other_mark key d _ hf2 hd, hs2, initNudgedToday_marked]
    simp [markedToday]

theorem checkLimits_global_idle (key d : String) (t : Int) (st : Storage)
    (hen : (getSettings st).nudgeEnabled = true) (hd : d ≠ "__global__")
    (hglob : ∀ g, (getSettings st).globalDailyLimit = some g →
      totalTime (getTrackingData key st) < g) :
    globalNudges (checkLimits key d t st).2 = [] ∧
      markedToday key (getSettings (checkLimits key d t st).1) "__global__" =
        markedToday key (getSettings st) "__global__" := by
  obtain ⟨hf2, hlim, hdata, hnog, hmk⟩ := beforeGlobal_facts key d t st
  have hdue : globalDue (siteCheck d t (initNudgedToday key
      { settings := getSettings st, storage := st, events := [] })).settings
      (totalTime (getTrackingData key (siteCheck d t (initNudgedToday key
        { settings := getSettings st, storage := st, events := [] })).storage)) = false := by
    unfold globalDue
    rw [hlim, hdata]
    cases hg : (getSettings st).globalDailyLimit with
    | none => simp [truthyNum]
    | some g =>
      have := hglob g hg
      simp [truthyNum, orZero, this]
  have hrun : checkRun key d t st = siteCheck d t (initNudgedToday key
      { settings := getSettings st, storage := st, events := [] }) := by
    unfold checkRun
    rw [globalCheck_eq, hdue]
    simp
  have hsync := checkRun_sync key d t st
  rw [checkLimits_enabled key d t st hen]
  rw [hrun] at hsync ⊢
  refine ⟨hnog, ?_⟩
  show markedToday key (getSettings _) "__global__" = _
  rw [hsync]
  unfold markedToday
  rw [hf2, hmk hd]
  simp [markedToday]

/-- C8 (as amended). For every domain `d` other than the string `__global__`, with
nudges enabled: (i) a `checkLimits` run in which the site limit of `d` is not reached
(no limit for `d`, or `timeSpent` below it) dispatches no site nudge for `d` and leaves
the mark of `d` as it was, whether or not the global nudge fires, so a later site breach
of an unmarked `d` that is not a property name of `Object.prototype` is still nudged;
(ii) a run in which the global limit is not reached
dispatches no global nudge and leaves the `__global__` mark as it was, whether or not
the site nudge fires, so a later global breach is still nudged. -/
theorem site_and_global_independent (key d : String) (t : Int) (st : Storage)
    (hen : (getSettings st).nudgeEnabled = true) (hd : d ≠ "__global__") :
    ((∀ l, (getSettings st).limits.get d = some l → t < l) →
      siteNudgesFor d (checkLimits key d t st).2 = [] ∧
        markedToday key (getSettings (checkLimits key d t st).1) d =
          markedToday key (getSettings st) d ∧
        ∀ (b : Obj (Obj Int)) (t2 l : Int), plainKey d = true →
          markedToday key (getSettings st) d = false →
          (getSettings st).limits.get d = some l → l ≠ 0 → l ≤ t2 →
          siteNudgesFor d (checkLimits key d t2
            { settings := (checkLimits key d t st).1.settings, buckets := b }).2 =
              [⟨d, t2, l⟩]) ∧
    ((∀ g, (getSettings st).globalDailyLimit = some g →
        totalTime (getTrackingData key st) < g) →
      globalNudges (checkLimits key d t st).2 = [] ∧
        markedToday key (getSettings (checkLimits key d t st).1) "__global__" =
          markedToday key (getSettings st) "__global__" ∧
        ∀ (b : Obj (Obj Int)) (t2 g : Int),
          markedToday key (getSettings st) "__global__" = false →
          (getSettings st).globalDailyLimit = some g → g ≠ 0 →
          g ≤ totalTime (getTrackingData key
            { settings := (checkLimits key d t st).1.settings, buckets := b }) →
          globalNudges (checkLimits key d t2
            { settings := (checkLimits key d t st).1.settings, buckets := b }).2 =
              [⟨"all sites", totalTime (getTrackingData key
                { settings := (checkLimits key d t st).1.settings, buckets := b }), g⟩]) := by
  have hfr := checkLimits_frame key d t st
  have hsame : ∀ b : Obj (Obj Int),
      getSettings { settings := (checkLimits key d t st).1.settings, buckets := b } =
        getSettings (checkLimits key d t st).1 := fun _ => rfl
  constructor
  · intro hsite
    obtain ⟨h1, h2⟩ := checkLimits_site_idle key d t st hen hd hsite
    refine ⟨h1, h2, ?_⟩
    intro b t2 l _ hm hl hl0 ht2
    apply (checkLimits_site_fires key d t2 l _ _ _ hl0 ht2 _).2.1
    · rw [hsame, hfr.2.2]; exact hen
    · rw [hsame, hfr.1]; exact hl
    · rw [hsame, h2]; exact hm
  · intro hglob
    obtain ⟨h1, h2⟩ := checkLimits_global_idle key d t st hen hd hglob
    refine ⟨h1, h2, ?_⟩
    intro b t2 g hm hg hg0 htot
    apply ((checkLimits_global_facts key d t2 g _ _ _ hg0 hd _).1 htot).2.1
    · rw [hsame, hfr.2.2]; exact hen
    · rw [hsame, hfr.2.1]; exact hg
    · rw [hsame, h2]; exact hm

/-- Independence at a concrete state: a run that dispatches the global nudge while
`a.com` is under its own limit leaves `a.com` unmarked, and the later breach of the
site limit is nudged. -/
theorem site_and_global_independent_witness :
    siteNudgesFor "a.com" (checkLimits "tracking_2024-01-01" "a.com" 130
      { settings := (checkLimits "tracking_2024-01-01" "a.com" 70
          { settings := some { nudgeEnabled := true, limits := [("a.com", 120)],
                               globalDailyLimit := some 100, nudgedToday := none },
            buckets := [("tracking_2024-01-01", [("a.com", 70), ("b.org", 40)])] }).1.settings,
        buckets := [("tracking_2024-01-01", [("a.com", 130), ("b.org", 40)])] }).2 =
      [{ domain := "a.com", timeSpent := 130, limit := 120 }] :=
  ((site_and_global_independent "tracking_2024-01-01" "a.com" 70
    { settings := some { nudgeEnabled := true, limits := [("a.com", 120)],
                         globalDailyLimit := some 100, nudgedToday := none },
      buckets := [("tracking_2024-01-01", [("a.com", 70), ("b.org", 40)])] }
    rfl (by decide)).1 (by
      intro l hl
      have h : l = 120 := by
        simp [getSettings, Obj.get] at hl
        exact hl.symm
      rw [h]
      decide)).2.2
    [("tracking_2024-01-01", [("a.com", 130), ("b.org", 40)])] 130 120 (by decide) rfl rfl
    (by decide) (by decide)

/-- C8 (as stated) fails for the domain string `__global__`, whose suppression key is
the sentinel itself.  With a site limit of 100 for that domain and a global limit of 50,
a run at 60 seconds reaches only the global limit: it dispatches the global nudge and no
site nudge, but the mark it sets is `sites["__global__"]`, the domain's own key, and the
later breach of the site limit at 120 seconds dispatches no site nudge. -/
theorem sentinel_collides_with_domain :
    globalNudges (checkLimits "tracking_2024-01-01" "__global__" 60
        { settings := some { nudgeEnabled := true, limits := [("__global__", 100)],
                             globalDailyLimit := some 50,
                             nudgedToday := some { date := some "tracking_2024-01-01",
                                                   sites := [] } },
          buckets := [("tracking_2024-01-01", [("__global__", 60)])] }).2 =
        [{ domain := "all sites", timeSpent := 60, limit := 50 }] ∧
    siteNudgesFor "__global__" (checkLimits "tracking_2024-01-01" "__global__" 60
        { settings := some { nudgeEnabled := true, limits := [("__global__", 100)],
                             globalDailyLimit := some 50,
                             nudgedToday := some { date := some "tracking_2024-01-01",
                                                   sites := [] } },
          buckets := [("tracking_2024-01-01", [("__global__", 60)])] }).2 = [] ∧
    (getSettings (checkLimits "tracking_2024-01-01" "__global__" 60
        { settings := some { nudgeEnabled := true, limits := [("__global__", 100)],
                             globalDailyLimit := some 50,
                             nudgedToday := some { date := some "tracking_2024-01-01",
                                                   sites := [] } },
          buckets := [("tracking_2024-01-01", [("__global__", 60)])] }).1).sites.get
        "__global__" = some true ∧
    siteNudgesFor "__global__" (checkLimits "tracking_2024-01-01" "__global__" 120
        { settings := (checkLimits "tracking_2024-01-01" "__global__" 60
            { settings := some { nudgeEnabled := true, limits := [("__global__", 100)],
                                 globalDailyLimit := some 50,
                                 nudgedToday := some { date := some "tracking_2024-01-01",
                                                       sites := [] } },
              buckets := [("tracking_2024-01-01", [("__global__", 60)])] }).1.settings,
          buckets := [("tracking_2024-01-01", [("__global__", 120)])] }).2 = [] := by
  decide

/-! ## Idle ticks and idle-state events -/

theorem foldl_add_eq (l : List Int) (a : Int) :
    l.foldl (fun sum t => sum + t) a = a + l.sum := by
  induction l generalizing a with
  | nil => simp
  | cons x rest ih => simp [List.foldl_cons, ih, add_assoc]

theorem totalTime_eq_sum (data : Obj Int) : totalTime data = (data.map Prod.snd).sum := by
  simp [totalTime, Obj.values, foldl_add_eq]

theorem totalTime_set (data : Obj Int) (k : String) (s : Int) :
    totalTime (data.set k (orZero (data.get k) + s)) = totalTime data + s := by
  rw [totalTime_eq_sum, totalTime_eq_sum]
  induction data with
  | nil => simp [Obj.set, Obj.get, orZero]
  | cons p rest ih =>
    obtain ⟨k', v'⟩ := p
    by_cases h : k' = k
    · simp [Obj.set, Obj.get, h, orZero]
      omega
    · simp [Obj.set, Obj.get, h]
      simp at ih
      omega

theorem Obj.set_set {α : Type} (o : Obj α) (k : String) (a b : α) :
    (o.set k a).set k b = o.set k b := by
  induction o with
  | nil => simp [Obj.set]
  | cons p rest ih =>
    obtain ⟨k', v'⟩ := p
    by_cases h : k' = k
    · simp [Obj.set, h]
    · simp [Obj.set, h, ih]

theorem updateCurrentSite_same (parseURL : String → Option URLObj) (d : String)
    (q : TabQuery) (now : Int) (a : Activity) (hq : queryShows parseURL d q = true)
    (ha : a.currentSite = some d) :
    updateCurrentSite parseURL q now a = a := by
  unfold queryShows at hq
  unfold updateCurrentSite
  split at hq
  · rename_i tab rest
    split at hq
    · rename_i url hurl
      simp only [Bool.and_eq_true, bne_iff_ne, ne_eq, beq_iff_eq] at hq
      simp [hurl, hq.1, hq.2, ha]
    · exact absurd hq (by simp)
  · exact absurd hq (by simp)

theorem updateCurrentSite_found (parseURL : String → Option URLObj) (d : String)
    (q : TabQuery) (now : Int) (a : Activity) (hq : queryShows parseURL d q = true)
    (ha : a.currentSite = none) :
    updateCurrentSite parseURL q now a = { currentSite := some d, lastActiveTime := now } := by
  unfold queryShows at hq
  unfold updateCurrentSite
  split at hq
  · rename_i tab rest
    split at hq
    · rename_i url hurl
      simp only [Bool.and_eq_true, bne_iff_ne, ne_eq, beq_iff_eq] at hq
      simp [hurl, hq.1, hq.2, ha]
    · exact absurd hq (by simp)
  · exact absurd hq (by simp)

theorem acceptedWindow_nonneg (last now : Int) : 0 ≤ acceptedWindow last now := by
  unfold acceptedWindow
  split
  · rename_i h
    omega
  · exact le_refl 0

theorem stepSeconds_nonneg (start : Option Int) (s : Step) : 0 ≤ stepSeconds start s := by
  cases s with
  | tick env =>
    cases start with
    | none => simp [stepSeconds]
    | some last =>
      simp only [stepSeconds]
      split
      · exact acceptedWindow_nonneg _ _
      · exact le_refl 0
  | idleChanged state now q r => simp [stepSeconds]

theorem committedSeconds_nonneg (steps : List Step) (start : Option Int) :
    0 ≤ committedSeconds start steps := by
  induction steps generalizing start with
  | nil => simp [committedSeconds]
  | cons s rest ih =>
    simp only [committedSeconds]
    have h1 := stepSeconds_nonneg start s
    have h2 := ih (nextStart start s)
    omega

theorem trackTime_current (parseURL : String → Option URLObj) (d : String)
    (env : TickEnv) (w : World) (hd : d ≠ "") (hq : queryShows parseURL d env.query = true)
    (ha : w.activity.currentSite = some d) :
    (trackTime parseURL env w).1.activity =
        { currentSite := some d,
          lastActiveTime :=
            if env.state = IdleState.active then env.now else w.activity.lastActiveTime } ∧
      (trackTime parseURL env w).1.storage =
        (if env.state = IdleState.active ∧
            0 < elapsed env w.activity ∧ elapsed env w.activity < 120 then
          (updateTimeForSite env.todayKey (some d) (elapsed env w.activity) w.storage).1
        else w.storage) := by
  have htr : truthyStr (some d) = true := by simp [truthyStr, hd]
  by_cases hs : env.state = IdleState.active
  · have hacc : (accountElapsed env w).1 =
        { activity := { currentSite := some d, lastActiveTime := env.now },
          storage := (if 0 < elapsed env w.activity ∧ elapsed env w.activity < 120 then
            (updateTimeForSite env.todayKey (some d) (elapsed env w.activity) w.storage).1
            else w.storage) } := by
      unfold accountElapsed
      by_cases he : 0 < elapsed env w.activity ∧ elapsed env w.activity < 120
      · simp [hs, ha, htr, he]
      · simp [hs, ha, htr, he]
    unfold trackTime
    simp only [hacc]
    rw [updateCurrentSite_same parseURL d env.query _ _ hq rfl]
    simp [hs]
  · have hacc : (accountElapsed env w).1 = w := by
      unfold accountElapsed
      simp [hs]
    unfold trackTime
    simp only [hacc]
    rw [updateCurrentSite_same parseURL d env.query _ _ hq ha]
    simp only [hs, if_false, false_and, and_true]
    cases hw : w.activity with
    | mk site last =>
      rw [hw] at ha
      simp only at ha
      rw [ha]

theorem trackTime_no_site (parseURL : String → Option URLObj) (d : String)
    (env : TickEnv) (w : World) (hq : queryShows parseURL d env.query = true)
    (ha : w.activity.currentSite = none) :
    (trackTime parseURL env w).1.activity =
        { currentSite := some d, lastActiveTime := env.refreshNow } ∧
      (trackTime parseURL env w).1.storage = w.storage := by
  have hacc : (accountElapsed env w).1 = w := by
    unfold accountElapsed
    simp [ha, truthyStr]
  unfold trackTime
  simp only [hacc]
  rw [updateCurrentSite_found parseURL d env.query _ _ hq ha]
  simp

theorem runStep_focused (parseURL : String → Option URLObj) (key d : String) (s : Step)
    (w : World) (hd : d ≠ "") (hs : focusedStep parseURL d key s = true)
    (ha : w.activity.currentSite = some d ∨ w.activity.currentSite = none) :
    ((runStep parseURL s w).activity.currentSite = some d ∨
        (runStep parseURL s w).activity.currentSite = none) ∧
      windowStart (runStep parseURL s w).activity = nextStart (windowStart w.activity) s ∧
      getTrackingData key (runStep parseURL s w).storage =
        (if stepSeconds (windowStart w.activity) s = 0 then getTrackingData key w.storage
        else (getTrackingData key w.storage).set d
          (orZero ((getTrackingData key w.storage).get d) +
            stepSeconds (windowStart w.activity) s)) := by
  have htr : truthyStr (some d) = true := by simp [truthyStr, hd]
  cases s with
  | tick env =>
    simp only [focusedStep, Bool.and_eq_true, beq_iff_eq] at hs
    obtain ⟨hq, hk⟩ := hs
    rcases ha with ha | ha
    · obtain ⟨h1, h2⟩ := trackTime_current parseURL d env w hd hq ha
      have hws : windowStart w.activity = some w.activity.lastActiveTime := by
        simp [windowStart, ha, htr]
      refine ⟨Or.inl ?_, ?_, ?_⟩
      · simp [runStep, h1]
      · rw [hws]
        simp [runStep, h1, windowStart, htr, nextStart]
      · simp only [runStep, h2, hws, stepSeconds]
        subst hk
        by_cases hst : env.state = IdleState.active
        · by_cases he : 0 < elapsed env w.activity ∧ elapsed env w.activity < 120
          · have he2 : 0 < roundSeconds (env.now - w.activity.lastActiveTime) ∧
                roundSeconds (env.now - w.activity.lastActiveTime) < 120 := he
            have hne : roundSeconds (env.now - w.activity.lastActiveTime) ≠ 0 := by omega
            rw [if_pos ⟨hst, he⟩, updateTimeForSite_ledger _ _ _ _ hd]
            simp [hst, acceptedWindow, he2, hne, elapsed]
          · have he2 : ¬ (0 < roundSeconds (env.now - w.activity.lastActiveTime) ∧
                roundSeconds (env.now - w.activity.lastActiveTime) < 120) := he
            rw [if_neg (fun h => he h.2)]
            simp [hst, acceptedWindow, he2]
        · rw [if_neg (fun h => hst h.1)]
          simp [hst]
    · obtain ⟨h1, h2⟩ := trackTime_no_site parseURL d env w hq ha
      have hws : windowStart w.activity = none := by
        simp [windowStart, ha, truthyStr]
      refine ⟨Or.inl ?_, ?_, ?_⟩
      · simp [runStep, h1]
      · rw [hws]
        simp [runStep, h1, windowStart, htr, nextStart]
      · simp [runStep, h2, hws, stepSeconds]
  | idleChanged state now q r =>
    simp only [focusedStep] at hs
    by_cases hst : state = IdleState.active
    · subst hst
      rcases ha with ha | ha
      · have hws : windowStart w.activity = some w.activity.lastActiveTime := by
          simp [windowStart, ha, htr]
        have hupd : onIdleStateChanged parseURL IdleState.active now q r w.activity =
            { currentSite := some d, lastActiveTime := now } := by
          unfold onIdleStateChanged
          simp only [ne_eq, not_true_eq_false, if_false]
          rw [updateCurrentSite_same parseURL d q r
            { currentSite := w.activity.currentSite, lastActiveTime := now } hs ha, ha]
        refine ⟨Or.inl ?_, ?_, ?_⟩
        · simp [runStep, hupd]
        · rw [hws]
          simp [runStep, hupd, windowStart, htr, nextStart]
        · simp [runStep, stepSeconds]
      · have hws : windowStart w.activity = none := by
          simp [windowStart, ha, truthyStr]
        have hupd : onIdleStateChanged parseURL IdleState.active now q r w.activity =
            { currentSite := some d, lastActiveTime := r } := by
          unfold onIdleStateChanged
          simp only [ne_eq, not_true_eq_false, if_false]
          rw [updateCurrentSite_found parseURL d q r
            { currentSite := w.activity.currentSite, lastActiveTime := now } hs ha]
        refine ⟨Or.inl ?_, ?_, ?_⟩
        · simp [runStep, hupd]
        · rw [hws]
          simp [runStep, hupd, windowStart, htr, nextStart]
        · simp [runStep, stepSeconds]
    · have hupd : onIdleStateChanged parseURL state now q r w.activity =
          { currentSite := none, lastActiveTime := w.activity.lastActiveTime } := by
        unfold onIdleStateChanged
        simp [hst]
      refine ⟨Or.inr ?_, ?_, ?_⟩
      · simp [runStep, hupd]
      · simp [runStep, hupd, windowStart, truthyStr, nextStart, hst]
      · simp [runStep, stepSeconds]

theorem runSteps_ledger (parseURL : String → Option URLObj) (key d : String)
    (steps : List Step) (w : World) (hd : d ≠ "")
    (ha : w.activity.currentSite = some d ∨ w.activity.currentSite = none)
    (hf : ∀ s ∈ steps, focusedStep parseURL d key s = true) :
    getTrackingData key (runSteps parseURL steps w).storage =
      (if committedSeconds (windowStart w.activity) steps = 0 then
        getTrackingData key w.storage
      else (getTrackingData key w.storage).set d
        (orZero ((getTrackingData key w.storage).get d) +
          committedSeconds (windowStart w.activity) steps)) := by
  induction steps generalizing w with
  | nil => simp [runSteps, committedSeconds]
  | cons s rest ih =>
    obtain ⟨h1, h2, h3⟩ :=
      runStep_focused parseURL key d s w hd (hf s (List.mem_cons_self _ _)) ha
    have hrest := ih (runStep parseURL s w) h1 (fun x hx => hf x (List.mem_cons_of_mem _ hx))
    simp only [runSteps, committedSeconds]
    rw [hrest, h2, h3]
    have p1 := stepSeconds_nonneg (windowStart w.activity) s
    have p2 := committedSeconds_nonneg rest (nextStart (windowStart w.activity) s)
    by_cases c1 : stepSeconds (windowStart w.activity) s = 0
    · simp [c1]
    · by_cases c2 : committedSeconds (nextStart (windowStart w.activity) s) rest = 0
      · simp [c1, c2]
      · have c3 : stepSeconds (windowStart w.activity) s +
            committedSeconds (nextStart (windowStart w.activity) s) rest ≠ 0 := by omega
        simp only [c1, c2, c3, if_false]
        rw [Obj.get_set_same, Obj.set_set]
        simp only [orZero]
        rw [add_assoc]

theorem runSteps_total (parseURL : String → Option URLObj) (key d : String)
    (steps : List Step) (w : World) (hd : d ≠ "")
    (ha : w.activity.currentSite = some d ∨ w.activity.currentSite = none)
    (hf : ∀ s ∈ steps, focusedStep parseURL d key s = true) :
    totalTime (getTrackingData key (runSteps parseURL steps w).storage) =
      totalTime (getTrackingData key w.storage) +
        committedSeconds (windowStart w.activity) steps := by
  rw [runSteps_ledger parseURL key d steps w hd ha hf]
  by_cases c : committedSeconds (windowStart w.activity) steps = 0
  · simp [c]
  · simp only [c, if_false]
    rw [totalTime_set]

theorem updateCurrentSite_cases (parseURL : String → Option URLObj) (q : TabQuery) (now : Int)
    (a : Activity) :
    updateCurrentSite parseURL q now a = a ∨
      (updateCurrentSite parseURL q now a).currentSite = none ∨
      (updateCurrentSite parseURL q now a).lastActiveTime = now := by
  unfold updateCurrentSite
  split
  · exact Or.inr (Or.inl rfl)
  · split
    · split
      · split
        · exact Or.inr (Or.inl rfl)
        · dsimp only
          split
          · exact Or.inr (Or.inr rfl)
          · exact Or.inl rfl
      · exact Or.inr (Or.inl rfl)
    · exact Or.inr (Or.inl rfl)

theorem accountElapsed_activity (env : TickEnv) (w : World) :
    (accountElapsed env w).1.activity =
      (if env.state = IdleState.active ∧ truthyStr w.activity.currentSite = true then
        { currentSite := w.activity.currentSite, lastActiveTime := env.now }
      else w.activity) := by
  unfold accountElapsed
  split
  · rfl
  · rfl

theorem runStep_window_start (parseURL : String → Option URLObj) (s : Step) (p : IdleState)
    (c : Int) (w : World) (ts : List Int) (hc : ∀ τ ∈ ts, τ ≤ c)
    (hagree : s.agrees p = true) (ht1 : c ≤ s.time) (ht2 : s.time ≤ s.endTime) :
    (∀ τ ∈ ts ++ [s.time], τ ≤ s.endTime) ∧
      (s.stateAfter p = IdleState.active →
        truthyStr (runStep parseURL s w).activity.currentSite = true →
        ∀ τ ∈ ts ++ [s.time], τ ≤ (runStep parseURL s w).activity.lastActiveTime) := by
  have hall : ∀ τ ∈ ts ++ [s.time], τ ≤ s.time := by
    intro τ hτ
    rcases List.mem_append.mp hτ with h | h
    · exact le_trans (hc τ h) ht1
    · simp at h
      omega
  refine ⟨fun τ hτ => le_trans (hall τ hτ) ht2, ?_⟩
  intro hp htr τ hτ
  cases s with
  | tick env =>
    simp only [Step.agrees, beq_iff_eq] at hagree
    simp only [Step.stateAfter] at hp
    have hact : env.state = IdleState.active := hagree.trans hp
    simp only [runStep, trackTime] at htr ⊢
    rcases updateCurrentSite_cases parseURL env.query env.refreshNow
      (accountElapsed env w).1.activity with h | h | h
    · rw [h] at htr ⊢
      rw [accountElapsed_activity] at htr ⊢
      by_cases hsite : truthyStr w.activity.currentSite = true
      · simp only [hact, hsite, and_self, if_true]
        exact hall τ hτ
      · simp only [hact, hsite, and_false, if_false] at htr
        exact absurd htr hsite
    · rw [h] at htr
      simp [truthyStr] at htr
    · rw [h]
      exact le_trans (hall τ hτ) ht2
  | idleChanged state now q r =>
    simp only [Step.stateAfter] at hp
    subst hp
    simp only [runStep, onIdleStateChanged, ne_eq, not_true_eq_false, if_false] at htr ⊢
    rcases updateCurrentSite_cases parseURL q r
      { currentSite := w.activity.currentSite, lastActiveTime := now } with h | h | h
    · rw [h]
      exact hall τ hτ
    · rw [h] at htr
      simp [truthyStr] at htr
    · rw [h]
      exact le_trans (hall τ hτ) ht2

theorem runSteps_window_start (parseURL : String → Option URLObj) (env : TickEnv)
    (pre : List Step) :
    ∀ (p : IdleState) (c : Int) (w : World) (ts : List Int),
      (∀ τ ∈ ts, τ ≤ c) →
      (p = IdleState.active → truthyStr w.activity.currentSite = true →
        ∀ τ ∈ ts, τ ≤ w.activity.lastActiveTime) →
      signalsAgree p (pre ++ [Step.tick env]) = true →
      wellTimed c (pre ++ [Step.tick env]) = true →
      env.state = IdleState.active →
      truthyStr (runSteps parseURL pre w).activity.currentSite = true →
      ∀ τ ∈ ts ++ pre.map Step.time, τ ≤ (runSteps parseURL pre w).activity.lastActiveTime := by
  induction pre with
  | nil =>
    intro p c w ts hc hinv hag _ hact htr τ hτ
    simp only [List.nil_append, signalsAgree, Step.agrees, Bool.and_true, beq_iff_eq] at hag
    simp only [runSteps] at htr ⊢
    simp only [List.map_nil, List.append_nil] at hτ
    exact hinv (hag.symm.trans hact) htr τ hτ
  | cons s rest ih =>
    intro p c w ts hc _ hag hwt hact htr τ hτ
    simp only [List.cons_append, signalsAgree, Bool.and_eq_true] at hag
    simp only [List.cons_append, wellTimed, Bool.and_eq_true, decide_eq_true_eq] at hwt
    obtain ⟨hs1, hs2⟩ := runStep_window_start parseURL s p c w ts hc hag.1 hwt.1.1 hwt.1.2
    simp only [runSteps] at htr ⊢
    have := ih (s.stateAfter p) s.endTime (runStep parseURL s w) (ts ++ [s.time]) hs1 hs2
      hag.2 hwt.2 hact htr
    apply this
    simpa [List.append_assoc] using hτ

/-- C9 (as amended). Let `d` be a non-empty domain that is not a property name of
`Object.prototype`, shown by the active tab throughout, let every listener run to
completion before the next one starts, and let the day key be the same at every tick.
(a) Starting from an empty ledger with `d` current since time 0, the ticks at 10 s
(active), 20 s (idle or locked) and 30 s (active), with the idle-state events between
them (idle or locked before the second tick, `active` at `t` between the second and
the third tick), leave the bucket `{d: 10 + round((30000 - t) / 1000)}`: the first
window of 10 s and the time since the return to `active`, which is at most 20 s and
is 20 s when the return falls within half a second of the second tick.
(b) Over any run of ticks and idle-state events the bucket is the initial one with the
committed seconds added to `d`, and the bucket total grows by the committed seconds:
the sum of the windows that ended in a tick reported `active` and passed the sanity
window, each measured from `lastActiveTime`.
(c) When the idle signals of the ticks agree with the idle-state events and the clock
does not run backwards, the window of every committing tick starts at or after every
earlier listener invocation, so no time up to a tick reported idle or up to the return
to `active` is added by a later tick.
(d) A tick whose idle signal is not `active` and an idle-state event leave the store
as it is. -/
theorem idle_windows_excluded (parseURL : String → Option URLObj) (key d : String)
    (hd : d ≠ "") (hplain : plainKey d = true) :
    (∀ (q : TabQuery) (settings : Option Settings) (pause : IdleState)
        (n t r1 r2 r3 r4 r5 : Int),
        queryShows parseURL d q = true → pause ≠ IdleState.active →
        20000 ≤ t → t ≤ 30000 →
        getTrackingData key (runSteps parseURL
            [Step.tick { state := IdleState.active, now := 10000, todayKey := key,
                         query := q, refreshNow := r1 },
              Step.idleChanged pause n q r2,
              Step.tick { state := pause, now := 20000, todayKey := key,
                          query := q, refreshNow := r3 },
              Step.idleChanged IdleState.active t q r4,
              Step.tick { state := IdleState.active, now := 30000, todayKey := key,
                          query := q, refreshNow := r5 }]
            { activity := { currentSite := some d, lastActiveTime := 0 },
              storage := { settings := settings, buckets := [] } }).storage =
          [(d, 10 + roundSeconds (30000 - t))] ∧
        10 + roundSeconds (30000 - t) ≤ 20 ∧
        (t ≤ 20500 → 10 + roundSeconds (30000 - t) = 20)) ∧
      (∀ (steps : List Step) (w : World),
        (w.activity.currentSite = some d ∨ w.activity.currentSite = none) →
        (∀ s ∈ steps, focusedStep parseURL d key s = true) →
        safeInt (orZero ((getTrackingData key w.storage).get d)) = true →
        safeInt (orZero ((getTrackingData key w.storage).get d) + 120 * steps.length) = true →
        getTrackingData key (runSteps parseURL steps w).storage =
            (if committedSeconds (windowStart w.activity) steps = 0 then
              getTrackingData key w.storage
            else (getTrackingData key w.storage).set d
              (orZero ((getTrackingData key w.storage).get d) +
                committedSeconds (windowStart w.activity) steps)) ∧
          totalTime (getTrackingData key (runSteps parseURL steps w).storage) =
            totalTime (getTrackingData key w.storage) +
              committedSeconds (windowStart w.activity) steps ∧
          0 ≤ committedSeconds (windowStart w.activity) steps) ∧
      (∀ (p : IdleState) (c : Int) (pre : List Step) (env : TickEnv) (w : World),
        signalsAgree p (pre ++ [Step.tick env]) = true →
        wellTimed c (pre ++ [Step.tick env]) = true →
        env.state = IdleState.active →
        truthyStr (runSteps parseURL pre w).activity.currentSite = true →
        ∀ s ∈ pre, s.time ≤ (runSteps parseURL pre w).activity.lastActiveTime) ∧
      (∀ (env : TickEnv) (w : World), env.state ≠ IdleState.active →
        (trackTime parseURL env w).1.storage = w.storage ∧
          (trackTime parseURL env w).2 = []) ∧
      (∀ (state : IdleState) (now : Int) (q : TabQuery) (r : Int) (w : World),
        (runStep parseURL (Step.idleChanged state now q r) w).storage = w.storage) := by
  refine ⟨?_, ?_, ?_, ?_, ?_⟩
  · intro q settings pause n t r1 r2 r3 r4 r5 hq hpause ht1 ht2
    have he : roundSeconds (30000 - t) = (30500 - t) / 1000 := by
      unfold roundSeconds
      congr 1
      ring
    have hlo : 0 ≤ (30500 - t) / 1000 := by omega
    have hhi : (30500 - t) / 1000 ≤ 10 := by omega
    have hw1 : acceptedWindow 0 10000 = 10 := by decide
    have hw2 : acceptedWindow t 30000 = roundSeconds (30000 - t) := by
      unfold acceptedWindow
      rw [he]
      split
      · rfl
      · omega
    have hc : committedSeconds
        (windowStart { currentSite := some d, lastActiveTime := 0 })
        [Step.tick { state := IdleState.active, now := 10000, todayKey := key,
                     query := q, refreshNow := r1 },
          Step.idleChanged pause n q r2,
          Step.tick { state := pause, now := 20000, todayKey := key,
                      query := q, refreshNow := r3 },
          Step.idleChanged IdleState.active t q r4,
          Step.tick { state := IdleState.active, now := 30000, todayKey := key,
                      query := q, refreshNow := r5 }] =
        10 + roundSeconds (30000 - t) := by
      simp [committedSeconds, stepSeconds, nextStart, windowStart, truthyStr, hd, hpause,
        hw1, hw2]
    refine ⟨?_, ?_, ?_⟩
    · rw [runSteps_ledger parseURL key d _ _ hd (Or.inl rfl)
        (by simp [focusedStep, hq])]
      simp only [hc]
      have hne : 10 + roundSeconds (30000 - t) ≠ 0 := by
        rw [he]
        omega
      simp [hne, getTrackingData, Obj.get, Obj.set, orZero]
    · rw [he]
      omega
    · intro ht3
      rw [he]
      omega
  · intro steps w ha hf _ _
    exact ⟨runSteps_ledger parseURL key d steps w hd ha hf,
      runSteps_total parseURL key d steps w hd ha hf,
      committedSeconds_nonneg steps _⟩
  · intro p c pre env w hag hwt hact htr s hs
    have h := runSteps_window_start parseURL env pre p c w [] (by simp) (by simp)
      hag hwt hact htr
    apply h
    simp only [List.nil_append, List.mem_map]
    exact ⟨s, hs, rfl⟩
  · intro env w hs
    have hacc : accountElapsed env w = (w, []) := by
      unfold accountElapsed
      simp [hs]
    unfold trackTime
    rw [hacc]
    exact ⟨rfl, rfl⟩
  · intro state now q r w
    rfl

/-- The scenario of the specification for `a.com`: ticks at 10, 20 and 30 seconds
reported active, idle, active, the idle-state events between them, and the return to
`active` 0.4 s after the second tick: the ledger holds the two windows, 20 s. -/
theorem idle_windows_excluded_witness :
    getTrackingData "tracking_2024-01-01" (runSteps scenarioParse
        [Step.tick { state := IdleState.active, now := 10000,
                     todayKey := "tracking_2024-01-01",
                     query := TabQuery.tabs [{ id := some 1, url := some "https://a.com/page" }],
                     refreshNow := 10001 },
          Step.idleChanged IdleState.idle 19500
            (TabQuery.tabs [{ id := some 1, url := some "https://a.com/page" }]) 19501,
          Step.tick { state := IdleState.idle, now := 20000,
                      todayKey := "tracking_2024-01-01",
                      query := TabQuery.tabs [{ id := some 1, url := some "https://a.com/page" }],
                      refreshNow := 20001 },
          Step.idleChanged IdleState.active 20400
            (TabQuery.tabs [{ id := some 1, url := some "https://a.com/page" }]) 20401,
          Step.tick { state := IdleState.active, now := 30000,
                      todayKey := "tracking_2024-01-01",
                      query := TabQuery.tabs [{ id := some 1, url := some "https://a.com/page" }],
                      refreshNow := 30001 }]
        { activity := { currentSite := some "a.com", lastActiveTime := 0 },
          storage := { settings := none, buckets := [] } }).storage =
      [("a.com", 10 + roundSeconds (30000 - 20400))] ∧
    10 + roundSeconds (30000 - 20400) = 20 :=
  ⟨((idle_windows_excluded scenarioParse "tracking_2024-01-01" "a.com" (by decide)
      (by decide)).1
      (TabQuery.tabs [{ id := some 1, url := some "https://a.com/page" }]) none
      IdleState.idle 19500 20400 10001 19501 20001 20401 30001
      (by decide) (by decide) (by decide) (by decide)).1, by decide⟩

/-- C9 (as stated) fails on its own scenario.  The run is the three ticks 10 s apart
reported active, idle, active, with the idle-state events the platform fires between
them; the idle signals agree with the events and the clock runs forward.
With `a.com` focused throughout and the return to `active` at 25 s, the third tick
measures its window from the return, so the ledger holds `10 + 5 = 15` seconds, not the
two 10-second windows.  With a page without host focused throughout (`currentSite` is
the empty string) the ticks commit nothing at all, even when the return to `active`
follows the second tick by 0.4 s: the store is left empty. -/
theorem idle_return_shortens_window :
    signalsAgree IdleState.active (scenarioRun "https://a.com/page" 25000) = true ∧
    wellTimed 0 (scenarioRun "https://a.com/page" 25000) = true ∧
    (∀ s ∈ scenarioRun "https://a.com/page" 25000,
      focusedStep scenarioParse "a.com" "tracking_2024-01-01" s = true) ∧
    getTrackingData "tracking_2024-01-01"
        (runSteps scenarioParse (scenarioRun "https://a.com/page" 25000)
          (scenarioStart "a.com")).storage = [("a.com", 15)] ∧
    extractDomain scenarioFileParse "file:///home/page.html" = some "" ∧
    signalsAgree IdleState.active (scenarioRun "file:///home/page.html" 20400) = true ∧
    wellTimed 0 (scenarioRun "file:///home/page.html" 20400) = true ∧
    (∀ s ∈ scenarioRun "file:///home/page.html" 20400,
      focusedStep scenarioFileParse "" "tracking_2024-01-01" s = true) ∧
    (runSteps scenarioFileParse (scenarioRun "file:///home/page.html" 20400)
        (scenarioStart "")).storage = { settings := none, buckets := [] } := by
  decide

/-! ## The domain resolver -/

/-- C10. `extractDomain` is a total function into `string | null`: for every input it
returns, and it returns `null` whenever the platform parser rejects the string or the
parsed scheme is `chrome:`, `chrome-extension:`, `brave:` or `about:`; for a parseable
URL of any other scheme whose host is `www.example.com` it returns `example.com`. -/
theorem extractDomain_total_and_rejects (parseURL : String → Option URLObj) (url : String) :
    (extractDomain parseURL url = none ∨ ∃ d, extractDomain parseURL url = some d) ∧
    (parseURL url = none → extractDomain parseURL url = none) ∧
    (∀ u, parseURL url = some u →
      (u.protocol = "chrome:" ∨ u.protocol = "chrome-extension:" ∨
        u.protocol = "brave:" ∨ u.protocol = "about:") →
      extractDomain parseURL url = none) ∧
    (∀ u, parseURL url = some u →
      ¬ (u.protocol = "chrome:" ∨ u.protocol = "chrome-extension:" ∨
        u.protocol = "brave:" ∨ u.protocol = "about:") →
      u.hostname = "www.example.com" →
      extractDomain parseURL url = some "example.com") := by
  refine ⟨?_, ?_, ?_, ?_⟩
  · cases h : extractDomain parseURL url with
    | none => exact Or.inl rfl
    | some d => exact Or.inr ⟨d, rfl⟩
  · intro h
    simp [extractDomain, h]
  · intro u h hex
    simp only [extractDomain, h]
    rw [if_pos hex]
  · intro u h hex hhost
    simp only [extractDomain, h]
    rw [if_neg hex, hhost]
    decide

/-- The resolver on concrete inputs: a malformed string, an excluded scheme, and a
host `www.example.com`. -/
theorem extractDomain_total_and_rejects_witness :
    extractDomain (fun url => if url = "https://www.example.com/a" then
        some { protocol := "https:", hostname := "www.example.com" } else none)
      "https://www.example.com/a" = some "example.com" :=
  (extractDomain_total_and_rejects (fun url => if url = "https://www.example.com/a" then
      some { protocol := "https:", hostname := "www.example.com" } else none)
    "https://www.example.com/a").2.2.2
    { protocol := "https:", hostname := "www.example.com" } (by decide) (by decide) rfl

/-! ## The `www.` replacement of the domain resolver -/

theorem replaceFirst_leading_www (r : String) : replaceFirst ("www." ++ r) "www." "" = r := by
  have h : ("www." ++ r).data = 'w' :: 'w' :: 'w' :: '.' :: r.data := by
    rw [String.data_append]
    rfl
  have hp : ("www." : String).data = ['w', 'w', 'w', '.'] := rfl
  have he : ("" : String).data = [] := rfl
  unfold replaceFirst
  rw [h, hp, he]
  simp [replaceFirstChars, List.isPrefixOf]

/-- C11. For a parseable URL with a non-excluded scheme, `extractDomain` returns `r`
when the hostname is `"www." ++ r`; but `hostname.replace('www.', '')` removes the
first occurrence of `www.` wherever it stands, so hosts that do not begin with `www.`
are not returned as they are: `news.www.example.com` becomes `news.example.com` and
`awww.example.com` becomes `aexample.com`. -/
theorem extractDomain_replaces_inner_www :
    (∀ (parseURL : String → Option URLObj) (url : String) (u : URLObj) (r : String),
      parseURL url = some u →
      ¬ (u.protocol = "chrome:" ∨ u.protocol = "chrome-extension:" ∨
        u.protocol = "brave:" ∨ u.protocol = "about:") →
      u.hostname = "www." ++ r → extractDomain parseURL url = some r) ∧
    extractDomain (fun _ => some { protocol := "https:", hostname := "news.www.example.com" })
      "https://news.www.example.com/" = some "news.example.com" ∧
    extractDomain (fun _ => some { protocol := "https:", hostname := "awww.example.com" })
      "https://awww.example.com/" = some "aexample.com" := by
  refine ⟨?_, by decide, by decide⟩
  intro parseURL url u r h hex hhost
  simp only [extractDomain, h]
  rw [if_neg hex, hhost, replaceFirst_leading_www]

/-! ## The ledger update -/

theorem updateTimeForSite_buckets (key d : String) (s : Int) (st : Storage) (hd : d ≠ "") :
    (updateTimeForSite key (some d) s st).1.buckets =
      st.buckets.set key ((getTrackingData key st).set d
        (orZero ((getTrackingData key st).get d) + s)) := by
  rw [updateTimeForSite_trackable key d s st hd]
  simp [checkLimits_buckets, saveTrackingData]

theorem checkLimitsAt_buckets (dateKey dataKey d : String) (t : Int) (st : Storage) :
    (checkLimitsAt dateKey dataKey d t st).1.buckets = st.buckets := by
  unfold checkLimitsAt
  dsimp only
  split
  · rfl
  · simp [globalCheck_buckets, siteCheck_buckets, initNudgedToday_buckets]

theorem updateTimeForSiteAt_buckets (readKey writeKey dateKey dataKey d : String) (s : Int)
    (st : Storage) (hd : d ≠ "") :
    (updateTimeForSiteAt readKey writeKey dateKey dataKey (some d) s st).1.buckets =
      st.buckets.set writeKey ((getTrackingData readKey st).set d
        (orZero ((getTrackingData readKey st).get d) + s)) := by
  simp [updateTimeForSiteAt, hd, checkLimitsAt_buckets, saveTrackingData]

theorem updateTimeForSiteAt_same_key (key : String) (domain : Option String) (s : Int)
    (st : Storage) :
    updateTimeForSiteAt key key key key domain s st = updateTimeForSite key domain s st := rfl

/-- C12 (as amended). Let the day key stay the same between the read and the write of
the bucket, `d` be a non-empty domain that is not a property name of
`Object.prototype`, and the bucket before and after hold non-negative seconds with a
safe total.  Then after `updateTimeForSite(d, s)` today's bucket is the previous one
with `d` mapped to `(b[d] or 0) + s`: every other domain keeps its value, the buckets
under other day keys are unchanged, and the bucket total has grown by exactly `s`,
whatever keys `checkLimits` reads afterwards.  For a `null` or empty domain the call
returns the store unchanged and performs no action. -/
theorem addSeconds_postcondition (key dateKey dataKey d : String) (s : Int) (st : Storage)
    (hd : d ≠ "") (hplain : plainKey d = true) (hs : safeInt s = true)
    (hold : safeBucket (getTrackingData key st) = true)
    (hnew : safeBucket ((getTrackingData key st).set d
      (orZero ((getTrackingData key st).get d) + s)) = true) :
    getTrackingData key (updateTimeForSiteAt key key dateKey dataKey (some d) s st).1 =
        (getTrackingData key st).set d (orZero ((getTrackingData key st).get d) + s) ∧
      (getTrackingData key (updateTimeForSiteAt key key dateKey dataKey (some d) s st).1).get d =
        some (orZero ((getTrackingData key st).get d) + s) ∧
      (∀ d2, d2 ≠ d →
        (getTrackingData key
            (updateTimeForSiteAt key key dateKey dataKey (some d) s st).1).get d2 =
          (getTrackingData key st).get d2) ∧
      (∀ k2, k2 ≠ key →
        (updateTimeForSiteAt key key dateKey dataKey (some d) s st).1.buckets.get k2 =
          st.buckets.get k2) ∧
      totalTime (getTrackingData key
          (updateTimeForSiteAt key key dateKey dataKey (some d) s st).1) =
        totalTime (getTrackingData key st) + s ∧
      updateTimeForSite key (some d) s st =
        updateTimeForSiteAt key key key key (some d) s st ∧
      (∀ readKey writeKey : String,
        updateTimeForSiteAt readKey writeKey dateKey dataKey none s st = (st, []) ∧
          updateTimeForSiteAt readKey writeKey dateKey dataKey (some "") s st = (st, [])) := by
  have hl : getTrackingData key
      (updateTimeForSiteAt key key dateKey dataKey (some d) s st).1 =
      (getTrackingData key st).set d (orZero ((getTrackingData key st).get d) + s) := by
    have hb := updateTimeForSiteAt_buckets key key dateKey dataKey d s st hd
    have hg : getTrackingData key
        (updateTimeForSiteAt key key dateKey dataKey (some d) s st).1 =
        match (updateTimeForSiteAt key key dateKey dataKey (some d) s st).1.buckets.get key with
        | some data => data
        | none => [] := rfl
    rw [hg, hb, Obj.get_set_same]
  refine ⟨hl, ?_, ?_, ?_, ?_, rfl, ?_⟩
  · rw [hl, Obj.get_set_same]
  · intro d2 hne
    rw [hl, Obj.get_set_ne _ _ _ _ hne]
  · intro k2 hne
    rw [updateTimeForSiteAt_buckets key key dateKey dataKey d s st hd,
      Obj.get_set_ne _ _ _ _ hne]
  · rw [hl, totalTime_set]
  · intro readKey writeKey
    exact ⟨rfl, by simp [updateTimeForSiteAt]⟩

/-- The ledger update at a concrete state: 25 seconds on top of 50 for `a.com`, with
`b.org` and yesterday's bucket left alone. -/
theorem addSeconds_postcondition_witness :
    getTrackingData "tracking_2024-01-02"
      (updateTimeForSiteAt "tracking_2024-01-02" "tracking_2024-01-02" "tracking_2024-01-02"
        "tracking_2024-01-02" (some "a.com") 25
        { settings := none,
          buckets := [("tracking_2024-01-01", [("a.com", 900)]),
                      ("tracking_2024-01-02", [("b.org", 7), ("a.com", 50)])] }).1 =
      (getTrackingData "tracking_2024-01-02"
        { settings := none,
          buckets := [("tracking_2024-01-01", [("a.com", 900)]),
                      ("tracking_2024-01-02", [("b.org", 7), ("a.com", 50)])] }).set "a.com"
        (orZero ((getTrackingData "tracking_2024-01-02"
          { settings := none,
            buckets := [("tracking_2024-01-01", [("a.com", 900)]),
                        ("tracking_2024-01-02", [("b.org", 7), ("a.com", 50)])] }).get
              "a.com") + 25) ∧
    (getTrackingData "tracking_2024-01-02"
        { settings := none,
          buckets := [("tracking_2024-01-01", [("a.com", 900)]),
                      ("tracking_2024-01-02", [("b.org", 7), ("a.com", 50)])] }).set "a.com"
        (orZero ((getTrackingData "tracking_2024-01-02"
          { settings := none,
            buckets := [("tracking_2024-01-01", [("a.com", 900)]),
                        ("tracking_2024-01-02", [("b.org", 7), ("a.com", 50)])] }).get
              "a.com") + 25) = [("b.org", 7), ("a.com", 75)] :=
  ⟨(addSeconds_postcondition "tracking_2024-01-02" "tracking_2024-01-02"
      "tracking_2024-01-02" "a.com" 25
      { settings := none,
        buckets := [("tracking_2024-01-01", [("a.com", 900)]),
                    ("tracking_2024-01-02", [("b.org", 7), ("a.com", 50)])] }
      (by decide) (by decide) (by decide) (by decide) (by decide)).1, by decide⟩

/-- C12 (as stated) fails when the local date changes between the read and the write of
the bucket, because `getTodayKey()` is evaluated anew inside `saveTrackingData`.  With
`a.com` at 900 s and `b.org` at 30 s in the bucket of 1 January and no bucket yet for
2 January, a call `updateTimeForSite("a.com", 5)` that reads before midnight and writes
after it stores under 2 January the whole bucket of 1 January with `a.com` at 905 s:
today's bucket does not map `a.com` to `0 + 5`, and `b.org`, absent before, is now 30;
the bucket of 1 January, from which the call read, still holds 900 s for `a.com`. -/
theorem ledger_update_across_midnight :
    getTrackingData "tracking_2024-01-02"
        { settings := none,
          buckets := [("tracking_2024-01-01", [("a.com", 900), ("b.org", 30)])] } = [] ∧
    getTrackingData "tracking_2024-01-02"
      (updateTimeForSiteAt "tracking_2024-01-01" "tracking_2024-01-02" "tracking_2024-01-02"
        "tracking_2024-01-02" (some "a.com") 5
        { settings := none,
          buckets := [("tracking_2024-01-01", [("a.com", 900), ("b.org", 30)])] }).1 =
      [("a.com", 905), ("b.org", 30)] ∧
    getTrackingData "tracking_2024-01-01"
      (updateTimeForSiteAt "tracking_2024-01-01" "tracking_2024-01-02" "tracking_2024-01-02"
        "tracking_2024-01-02" (some "a.com") 5
        { settings := none,
          buckets := [("tracking_2024-01-01", [("a.com", 900), ("b.org", 30)])] }).1 =
      [("a.com", 900), ("b.org", 30)] := by
  decide

/-! ## Delivery failures -/

theorem count_pos_of_siteNudgesFor (d : String) (evs : List Event)
    (h : siteNudgesFor d evs ≠ []) : 1 ≤ (nudgeKeys evs).count d := by
  have h1 := siteNudgesFor_length_le d evs
  have h2 : 0 < (siteNudgesFor d evs).length := List.length_pos.mpr h
  omega

theorem count_pos_of_globalNudges (evs : List Event)
    (h : globalNudges evs ≠ []) : 1 ≤ (nudgeKeys evs).count "__global__" := by
  have h1 := globalNudges_length_le evs
  have h2 : 0 < (globalNudges evs).length := List.length_pos.mpr h
  omega

/-- C13 (as amended). A nudge that `checkLimits` decided is never decided again on the
same day, whether or not it was delivered: the mark is stored before
`sendNudgeToActiveTab` is called and that function reports nothing back.  If a run
dispatched a site nudge for `d`, the next `checkLimits` for `d` under the same day key
dispatches no site nudge for `d`, whatever the ledger and `timeSpent` are by then; if a
run dispatched the global nudge, the next run dispatches no global nudge.  A rejected
tab query and a missing active tab send no message. -/
theorem failed_delivery_not_retried (key d : String) (t t2 : Int) (st : Storage)
    (b : Obj (Obj Int)) :
    (siteNudgesFor d (checkLimits key d t st).2 ≠ [] →
      siteNudgesFor d (checkLimits key d t2
        { settings := (checkLimits key d t st).1.settings, buckets := b }).2 = []) ∧
    (globalNudges (checkLimits key d t st).2 ≠ [] →
      globalNudges (checkLimits key d t2
        { settings := (checkLimits key d t st).1.settings, buckets := b }).2 = []) ∧
    (∀ n : Nudge, sendNudgeToActiveTab TabQuery.throws n = [] ∧
      sendNudgeToActiveTab (TabQuery.tabs []) n = []) := by
  have hsame : getSettings { settings := (checkLimits key d t st).1.settings, buckets := b } =
      getSettings (checkLimits key d t st).1 := rfl
  refine ⟨?_, ?_, fun n => ⟨rfl, rfl⟩⟩
  · intro h
    have h1 := count_pos_of_siteNudgesFor d _ h
    have h2 := checkLimits_potential key d d t st
    have h3 := unmarked_le_one key d (getSettings st)
    have h4 := checkLimits_potential key d d t2
      { settings := (checkLimits key d t st).1.settings, buckets := b }
    rw [hsame] at h4
    have h5 := siteNudgesFor_length_le d (checkLimits key d t2
      { settings := (checkLimits key d t st).1.settings, buckets := b }).2
    apply List.eq_nil_of_length_eq_zero
    omega
  · intro h
    have h1 := count_pos_of_globalNudges _ h
    have h2 := checkLimits_potential key d "__global__" t st
    have h3 := unmarked_le_one key "__global__" (getSettings st)
    have h4 := checkLimits_potential key d "__global__" t2
      { settings := (checkLimits key d t st).1.settings, buckets := b }
    rw [hsame] at h4
    have h5 := globalNudges_length_le (checkLimits key d t2
      { settings := (checkLimits key d t st).1.settings, buckets := b }).2
    apply List.eq_nil_of_length_eq_zero
    omega

/-- A run that dispatched the nudge for `a.com` is followed by a run that dispatches
none, although the ledger has grown from 75 to 80 seconds against a limit of 60. -/
theorem failed_delivery_not_retried_witness :
    siteNudgesFor "a.com" (checkLimits "tracking_2024-01-01" "a.com" 80
      { settings := (checkLimits "tracking_2024-01-01" "a.com" 75
          { settings := some { nudgeEnabled := true, limits := [("a.com", 60)],
                               globalDailyLimit := some 14400, nudgedToday := none },
            buckets := [("tracking_2024-01-01", [("a.com", 75)])] }).1.settings,
        buckets := [("tracking_2024-01-01", [("a.com", 80)])] }).2 = [] :=
  (failed_delivery_not_retried "tracking_2024-01-01" "a.com" 75 80
    { settings := some { nudgeEnabled := true, limits := [("a.com", 60)],
                         globalDailyLimit := some 14400, nudgedToday := none },
      buckets := [("tracking_2024-01-01", [("a.com", 75)])] }
    [("tracking_2024-01-01", [("a.com", 80)])]).1 (by decide)

/-- C13 (as stated) fails.  With a limit of 60 for `a.com` and 75 seconds on the ledger,
`checkLimits` decides the site nudge while no tab is active, so no message is sent; the
next `checkLimits` on the same day, with 80 seconds on the ledger and an active tab,
dispatches no nudge and sends no message, because `sites["a.com"]` was stored as `true`
before the failed delivery. -/
theorem failed_delivery_is_lost :
    siteNudgesFor "a.com" (checkLimits "tracking_2024-01-01" "a.com" 75
        { settings := some { nudgeEnabled := true, limits := [("a.com", 60)],
                             globalDailyLimit := some 14400, nudgedToday := none },
          buckets := [("tracking_2024-01-01", [("a.com", 75)])] }).2 =
        [{ domain := "a.com", timeSpent := 75, limit := 60 }] ∧
    deliveries (TabQuery.tabs []) (checkLimits "tracking_2024-01-01" "a.com" 75
        { settings := some { nudgeEnabled := true, limits := [("a.com", 60)],
                             globalDailyLimit := some 14400, nudgedToday := none },
          buckets := [("tracking_2024-01-01", [("a.com", 75)])] }).2 = [] ∧
    (checkLimits "tracking_2024-01-01" "a.com" 80
        { settings := (checkLimits "tracking_2024-01-01" "a.com" 75
            { settings := some { nudgeEnabled := true, limits := [("a.com", 60)],
                                 globalDailyLimit := some 14400, nudgedToday := none },
              buckets := [("tracking_2024-01-01", [("a.com", 75)])] }).1.settings,
          buckets := [("tracking_2024-01-01", [("a.com", 80)])] }).2 = [] ∧
    deliveries (TabQuery.tabs [{ id := some 7, url := some "https://a.com/" }])
      (checkLimits "tracking_2024-01-01" "a.com" 80
        { settings := (checkLimits "tracking_2024-01-01" "a.com" 75
            { settings := some { nudgeEnabled := true, limits := [("a.com", 60)],
                                 globalDailyLimit := some 14400, nudgedToday := none },
              buckets := [("tracking_2024-01-01", [("a.com", 75)])] }).1.settings,
          buckets := [("tracking_2024-01-01", [("a.com", 80)])] }).2 = [] := by
  decide

/-! ## The tick timestamp and the end-of-tick refresh -/

theorem updateCurrentSite_time (parseURL : String → Option URLObj) (q : TabQuery) (now : Int)
    (a : Activity) :
    (updateCurrentSite parseURL q now a).lastActiveTime = a.lastActiveTime ∨
      (updateCurrentSite parseURL q now a).lastActiveTime = now := by
  unfold updateCurrentSite
  split
  · exact Or.inl rfl
  · split
    · split
      · split
        · exact Or.inl rfl
        · dsimp only
          split
          · exact Or.inr rfl
          · exact Or.inl rfl
      · exact Or.inl rfl
    · exact Or.inl rfl

/-- C14 (as amended). On every tick whose idle signal is `active` and whose
`currentSite` is a non-empty string, whatever the elapsed value is (accepted, or dropped
because it is `<= 0` or `>= 120`), `lastActiveTime` equals the tick's `now` after the
accounting step and `currentSite` is unchanged; the window of any later tick is
therefore measured from this tick's `now`, and after the refresh that ends the tick
`lastActiveTime` is this tick's `now` or the later `Date.now()` of the refresh. -/
theorem tick_timestamp_advances (parseURL : String → Option URLObj) (env : TickEnv)
    (w : World) (d : String) (hstate : env.state = IdleState.active)
    (hsite : w.activity.currentSite = some d) (hd : d ≠ "") :
    (accountElapsed env w).1.activity = { currentSite := some d, lastActiveTime := env.now } ∧
      (∀ next : TickEnv, elapsed next (accountElapsed env w).1.activity =
        roundSeconds (next.now - env.now)) ∧
      ((trackTime parseURL env w).1.activity.lastActiveTime = env.now ∨
        (trackTime parseURL env w).1.activity.lastActiveTime = env.refreshNow) := by
  have htr : truthyStr (some d) = true := by simp [truthyStr, hd]
  have hacc : (accountElapsed env w).1.activity =
      { currentSite := some d, lastActiveTime := env.now } := by
    unfold accountElapsed
    simp [hstate, hsite, htr]
  refine ⟨hacc, ?_, ?_⟩
  · intro next
    simp [elapsed, hacc]
  · unfold trackTime
    simp only [hacc]
    exact updateCurrentSite_time parseURL env.query env.refreshNow _

/-- The timestamp advances on a tick whose 130 elapsed seconds are dropped. -/
theorem tick_timestamp_advances_witness :
    (accountElapsed
        { state := IdleState.active, now := 130000, todayKey := "tracking_2024-01-01",
          query := TabQuery.throws, refreshNow := 130001 }
        { activity := { currentSite := some "a.com", lastActiveTime := 0 },
          storage := { settings := none, buckets := [] } }).1.activity =
      { currentSite := some "a.com", lastActiveTime := 130000 } :=
  (tick_timestamp_advances (fun _ => none)
    { state := IdleState.active, now := 130000, todayKey := "tracking_2024-01-01",
      query := TabQuery.throws, refreshNow := 130001 }
    { activity := { currentSite := some "a.com", lastActiveTime := 0 },
      storage := { settings := none, buckets := [] } }
    "a.com" rfl rfl (by decide)).1

/-- C14 (as stated) fails when `currentSite` is the empty string, which is not `null`:
the guard `state === 'active' && currentSite` is false, the accounting step is skipped
and `lastActiveTime` stays at 0 although the tick's `now` is 130000.  The empty string
is what the refresh stores for a page without host, such as a `file:` URL. -/
theorem tick_timestamp_stays_on_empty_site :
    ({ currentSite := some "", lastActiveTime := 0 } : Activity).currentSite ≠ none ∧
    (accountElapsed
        { state := IdleState.active, now := 130000, todayKey := "tracking_2024-01-01",
          query := TabQuery.throws, refreshNow := 130001 }
        { activity := { currentSite := some "", lastActiveTime := 0 },
          storage := { settings := none, buckets := [] } }).1.activity.lastActiveTime = 0 ∧
    updateCurrentSite (fun _ => some { protocol := "file:", hostname := "" })
        (TabQuery.tabs [{ id := some 1, url := some "file:///home/page.html" }]) 0
        { currentSite := none, lastActiveTime := 0 } =
      { currentSite := some "", lastActiveTime := 0 } := by
  decide

/-- C15. `updateCurrentSite`, with `d = extractDomain(url)` for the url of the first
tab found: if `d` differs from `currentSite`, afterwards `currentSite = d` and
`lastActiveTime = now`; if `d` equals `currentSite`, the state is unchanged; if the
query is rejected, finds no tab, or the tab has no url (absent or empty),
`currentSite = null` and `lastActiveTime` is kept.  The function maps the module state
to the module state and has no access to the store; and a `trackTime` tick, whatever its
idle signal, is the accounting step followed by this refresh, the store and the trace
being those of the accounting step. -/
theorem refresh_current_site (parseURL : String → Option URLObj) (now : Int)
    (a : Activity) :
    (∀ (tab : Tab) (rest : List Tab) (url : String),
      tab.url = some url → url ≠ "" →
      (extractDomain parseURL url ≠ a.currentSite →
        updateCurrentSite parseURL (TabQuery.tabs (tab :: rest)) now a =
          { currentSite := extractDomain parseURL url, lastActiveTime := now }) ∧
      (extractDomain parseURL url = a.currentSite →
        updateCurrentSite parseURL (TabQuery.tabs (tab :: rest)) now a = a)) ∧
    updateCurrentSite parseURL TabQuery.throws now a =
      { currentSite := none, lastActiveTime := a.lastActiveTime } ∧
    updateCurrentSite parseURL (TabQuery.tabs []) now a =
      { currentSite := none, lastActiveTime := a.lastActiveTime } ∧
    (∀ (tab : Tab) (rest : List Tab), (tab.url = none ∨ tab.url = some "") →
      updateCurrentSite parseURL (TabQuery.tabs (tab :: rest)) now a =
        { currentSite := none, lastActiveTime := a.lastActiveTime }) ∧
    (∀ (env : TickEnv) (w : World),
      (onAlarm parseURL "trackTime" env w).1.activity =
          updateCurrentSite parseURL env.query env.refreshNow
            (accountElapsed env w).1.activity ∧
        (onAlarm parseURL "trackTime" env w).1.storage = (accountElapsed env w).1.storage ∧
        (onAlarm parseURL "trackTime" env w).2 = (accountElapsed env w).2 ∧
        (env.state ≠ IdleState.active →
          (onAlarm parseURL "trackTime" env w).1 =
            { activity := updateCurrentSite parseURL env.query env.refreshNow w.activity,
              storage := w.storage } ∧
          (onAlarm parseURL "trackTime" env w).2 = [])) := by
  refine ⟨?_, rfl, rfl, ?_, ?_⟩
  · intro tab rest url hurl hne
    constructor
    · intro hdiff
      simp [updateCurrentSite, hurl, hne, hdiff]
    · intro hsame
      simp [updateCurrentSite, hurl, hne, hsame]
  · intro tab rest h
    rcases h with h | h <;> simp [updateCurrentSite, h]
  · intro env w
    refine ⟨rfl, rfl, rfl, ?_⟩
    intro hs
    have hacc : accountElapsed env w = (w, []) := by
      unfold accountElapsed
      simp [hs]
    simp [onAlarm, trackTime, hacc]

/-- The refresh on a change of domain: the new domain is taken and the timestamp reset. -/
theorem refresh_current_site_witness :
    updateCurrentSite scenarioParse
        (TabQuery.tabs [{ id := some 1, url := some "https://a.com/page" }]) 5000
        { currentSite := some "b.org", lastActiveTime := 100 } =
      { currentSite := extractDomain scenarioParse "https://a.com/page",
        lastActiveTime := 5000 } :=
  ((refresh_current_site scenarioParse 5000
      { currentSite := some "b.org", lastActiveTime := 100 }).1
    { id := some 1, url := some "https://a.com/page" } [] "https://a.com/page" rfl
    (by decide)).1 (by decide)

/-! ## Normalisation of the domain field in `addLimit` -/

theorem takeWhile_host (h p : List Char) (hslash : ∀ c ∈ h, c ≠ '/')
    (hp : p = [] ∨ ∃ rest, p = '/' :: rest) :
    (h ++ p).takeWhile (fun c => c != '/') = h := by
  induction h with
  | nil =>
    rcases hp with hp | ⟨rest, hp⟩
    · simp [hp]
    · simp [hp]
  | cons c cs ih =>
    have hc : c ≠ '/' := hslash c (List.mem_cons_self _ _)
    have hcs : ∀ x ∈ cs, x ≠ '/' := fun x hx => hslash x (List.mem_cons_of_mem _ hx)
    simp [List.takeWhile_cons, hc, ih hcs]

theorem prefix_takeWhile (q : Char → Bool) (pre x : List Char) (hpre : pre <+: x)
    (hq : ∀ c ∈ pre, q c = true) : pre <+: x.takeWhile q := by
  obtain ⟨t, rfl⟩ := hpre
  induction pre with
  | nil => exact List.nil_prefix
  | cons c cs ih =>
    have hc : q c = true := hq c (List.mem_cons_self _ _)
    have hcs : ∀ y ∈ cs, q y = true := fun y hy => hq y (List.mem_cons_of_mem _ hy)
    simp only [List.cons_append, List.takeWhile_cons, hc, if_true]
    exact (List.prefix_cons_inj c).mpr (ih hcs)

theorem prefix_of_host (pre h p : List Char) (hslash : ∀ c ∈ h, c ≠ '/')
    (hp : p = [] ∨ ∃ rest, p = '/' :: rest) (hpre : pre.isPrefixOf (h ++ p) = true)
    (hq : ∀ c ∈ pre, c ≠ '/') : pre.isPrefixOf h = true := by
  rw [List.isPrefixOf_iff_prefix] at hpre ⊢
  have h1 := prefix_takeWhile (fun c => c != '/') pre (h ++ p) hpre
    (fun c hc => by simpa using hq c hc)
  rwa [takeWhile_host h p hslash hp] at h1

theorem host_eq_scheme_word (sch body h p : List Char) (hslash : ∀ c ∈ h, c ≠ '/')
    (hp : p = [] ∨ ∃ rest, p = '/' :: rest) (hbody : ∀ c ∈ body, c ≠ '/')
    (hsch : sch = body ++ ['/', '/']) (hpre : sch.isPrefixOf (h ++ p) = true) : h = body := by
  rw [List.isPrefixOf_iff_prefix] at hpre
  obtain ⟨t, ht⟩ := hpre
  have h1 := takeWhile_host h p hslash hp
  rw [← ht, hsch] at h1
  have h2 : (body ++ ['/', '/'] ++ t).takeWhile (fun c => c != '/') = body := by
    rw [List.append_assoc]
    exact takeWhile_host body (['/', '/'] ++ t) hbody (Or.inr ⟨'/' :: t, rfl⟩)
  rw [h2] at h1
  exact h1.symm

theorem stripSchemeWww_form (s w h p : List Char)
    (hs : s = [] ∨ s = "http://".data ∨ s = "https://".data)
    (hw : w = [] ∨ w = "www.".data)
    (hp : p = [] ∨ ∃ rest, p = '/' :: rest)
    (hslash : ∀ c ∈ h, c ≠ '/') (hwww : "www.".data.isPrefixOf h = false)
    (hscheme : h ≠ "http:".data ∧ h ≠ "https:".data) :
    stripSchemeWww (s ++ w ++ h ++ p) = h ++ p := by
  have hnowww : "www.".data.isPrefixOf (h ++ p) = false := by
    cases hx : "www.".data.isPrefixOf (h ++ p) with
    | false => rfl
    | true =>
      have := prefix_of_host _ h p hslash hp hx (by decide)
      rw [hwww] at this
      exact absurd this (by simp)
  have hnohttps : "https://".data.isPrefixOf (h ++ p) = false := by
    cases hx : "https://".data.isPrefixOf (h ++ p) with
    | false => rfl
    | true =>
      exact absurd (host_eq_scheme_word _ "https:".data h p hslash hp (by decide) rfl hx)
        hscheme.2
  have hnohttp : "http://".data.isPrefixOf (h ++ p) = false := by
    cases hx : "http://".data.isPrefixOf (h ++ p) with
    | false => rfl
    | true =>
      exact absurd (host_eq_scheme_word _ "http:".data h p hslash hp (by decide) rfl hx)
        hscheme.1
  have e1 : ("https://" : String).data = ['h', 't', 't', 'p', 's', ':', '/', '/'] := rfl
  have e2 : ("http://" : String).data = ['h', 't', 't', 'p', ':', '/', '/'] := rfl
  have e3 : ("www." : String).data = ['w', 'w', 'w', '.'] := rfl
  rw [e1] at hnohttps
  rw [e2] at hnohttp
  rw [e3] at hnowww
  rcases hs with hs | hs | hs <;> rcases hw with hw | hw <;> subst hs <;> subst hw
  · simp [stripSchemeWww, e1, e2, e3, hnohttps, hnohttp, hnowww]
  · simp [stripSchemeWww, e1, e2, e3, List.isPrefixOf, hnowww]
  · simp [stripSchemeWww, e1, e2, e3, List.isPrefixOf, hnowww]
  · simp [stripSchemeWww, e1, e2, e3, List.isPrefixOf, hnowww]
  · simp [stripSchemeWww, e1, e2, e3, List.isPrefixOf, hnowww]
  · simp [stripSchemeWww, e1, e2, e3, List.isPrefixOf, hnowww]

theorem limitKey_no_slash (toLowerCase : List Char → List Char) (value : String) :
    ∀ c ∈ (limitKey toLowerCase value).data, c ≠ '/' := by
  intro c hc
  have h := List.mem_takeWhile_imp hc
  simpa using h

/-- C16 (as amended). Let the trimmed, lower-cased text of the domain field have the form
`[http:// or https://][www.]host[/path]`, where `host` is not empty, contains no `/`,
does not itself begin with `www.`, is not the bare word `http:` or `https:` and is not
`__proto__`, and let the minutes field parse to a positive integer `m`.  Then `addLimit`
stores `limits[host] = m * 60`, leaves every other limits entry, every other settings
field and every bucket unchanged, and writes the settings once.  For every input
whatever the stored key contains no `/`. -/
theorem addLimit_normalizes (toLowerCase : List Char → List Char) (value : String) (m : Int)
    (st : Storage) (s w h p : List Char)
    (hm : 0 < m)
    (hform : toLowerCase (trimChars value.data) = s ++ w ++ h ++ p)
    (hs : s = [] ∨ s = "http://".data ∨ s = "https://".data)
    (hw : w = [] ∨ w = "www.".data)
    (hp : p = [] ∨ ∃ rest, p = '/' :: rest)
    (hh : h ≠ []) (hslash : ∀ c ∈ h, c ≠ '/')
    (hwww : "www.".data.isPrefixOf h = false)
    (hscheme : h ≠ "http:".data ∧ h ≠ "https:".data)
    (hproto : String.mk h ≠ "__proto__") :
    limitKey toLowerCase value = String.mk h ∧
      addLimit toLowerCase value (some m) st =
        (saveSettings (withLimit (getSettings st) (String.mk h) (m * 60)) st,
          [Event.saveSettings (withLimit (getSettings st) (String.mk h) (m * 60))]) ∧
      (withLimit (getSettings st) (String.mk h) (m * 60)).limits.get (String.mk h) =
        some (m * 60) ∧
      (∀ d2, d2 ≠ String.mk h →
        (withLimit (getSettings st) (String.mk h) (m * 60)).limits.get d2 =
          (getSettings st).limits.get d2) ∧
      (withLimit (getSettings st) (String.mk h) (m * 60)).nudgeEnabled =
        (getSettings st).nudgeEnabled ∧
      (withLimit (getSettings st) (String.mk h) (m * 60)).globalDailyLimit =
        (getSettings st).globalDailyLimit ∧
      (withLimit (getSettings st) (String.mk h) (m * 60)).nudgedToday =
        (getSettings st).nudgedToday ∧
      (addLimit toLowerCase value (some m) st).1.buckets = st.buckets ∧
      (∀ (v : String) (c : Char), c ∈ (limitKey toLowerCase v).data → c ≠ '/') := by
  have hkey : limitKey toLowerCase value = String.mk h := by
    unfold limitKey
    rw [hform, stripSchemeWww_form s w h p hs hw hp hslash hwww hscheme,
      takeWhile_host h p hslash hp]
  have hne : toLowerCase (trimChars value.data) ≠ [] := by
    rw [hform]
    intro hnil
    have := List.append_eq_nil.mp hnil
    have := List.append_eq_nil.mp this.1
    exact hh this.2
  have hm0 : m ≠ 0 := by omega
  have hadd : addLimit toLowerCase value (some m) st =
      (saveSettings (withLimit (getSettings st) (String.mk h) (m * 60)) st,
        [Event.saveSettings (withLimit (getSettings st) (String.mk h) (m * 60))]) := by
    unfold addLimit
    simp only [hm0, if_false, hne, hkey]
  have hassign : (withLimit (getSettings st) (String.mk h) (m * 60)).limits =
      (getSettings st).limits.set (String.mk h) (m * 60) := by
    simp [withLimit, assignProperty, hproto]
  refine ⟨hkey, hadd, ?_, ?_, rfl, rfl, rfl, ?_, ?_⟩
  · rw [hassign]
    exact Obj.get_set_same _ _ _
  · intro d2 hd2
    rw [hassign]
    exact Obj.get_set_ne _ _ _ _ hd2
  · rw [hadd]
    rfl
  · intro v c hc
    exact limitKey_no_slash toLowerCase v c hc

/-- The scenario of the specification: `https://www.Example.com/page` with 30 minutes
stores `limits["example.com"] = 1800`. -/
theorem addLimit_normalizes_witness :
    limitKey lowerChars "https://www.Example.com/page" = "example.com" ∧
    addLimit lowerChars "https://www.Example.com/page" (some 30)
        { settings := none, buckets := [] } =
      (saveSettings (withLimit (getSettings { settings := none, buckets := [] })
          "example.com" (30 * 60)) { settings := none, buckets := [] },
        [Event.saveSettings (withLimit (getSettings { settings := none, buckets := [] })
          "example.com" (30 * 60))]) ∧
    (withLimit (getSettings { settings := none, buckets := [] })
        "example.com" (30 * 60)).limits.get "example.com" = some 1800 :=
  ⟨(addLimit_normalizes lowerChars "https://www.Example.com/page" 30
      { settings := none, buckets := [] }
      "https://".data "www.".data "example.com".data "/page".data
      (by decide) (by decide) (by decide) (by decide) (Or.inr ⟨"page".data, rfl⟩)
      (by decide) (by decide) (by decide) (by decide) (by decide)).1,
    (addLimit_normalizes lowerChars "https://www.Example.com/page" 30
      { settings := none, buckets := [] }
      "https://".data "www.".data "example.com".data "/page".data
      (by decide) (by decide) (by decide) (by decide) (Or.inr ⟨"page".data, rfl⟩)
      (by decide) (by decide) (by decide) (by decide) (by decide)).2.1,
    by decide⟩

/-- C16 (as stated) fails for a host that itself begins with `www.`: the pattern removes
a single `www.`, so the input `www.www.example.com` (prefix `www.`, host
`www.example.com`) is stored under `www.example.com`, a key with a leading `www.`, and
the input `https://www.example.com` read as scheme and host `www.example.com` is stored
under `example.com`, which is not the host. -/
theorem addLimit_keeps_second_www :
    (addLimit lowerChars "www.www.example.com" (some 30)
        { settings := none, buckets := [] }).2 =
      [Event.saveSettings (withLimit defaultSettings "www.example.com" 1800)] ∧
    "www.".data.isPrefixOf (limitKey lowerChars "www.www.example.com").data = true ∧
    (withLimit defaultSettings "www.example.com" 1800).limits = [("www.example.com", 1800)] ∧
    limitKey lowerChars "https://www.example.com" = "example.com" := by
  decide

/-! ## Inbound messages -/

theorem handleCheckLimit_no_write (key : String) (domain : Option String)
    (tabId : Option Nat) (st : Storage) :
    ∀ e ∈ handleCheckLimit key domain tabId st, e.isWrite = false := by
  intro e he
  unfold handleCheckLimit at he
  split at he
  · split at he
    · simp at he
    · dsimp only at he
      split at he
      · split at he
        · simp only [List.mem_singleton] at he
          rw [he]
          rfl
        · simp at he
      · simp at he
  · simp at he

/-- C17. For every store and every message `CHECK_LIMIT`, `USER_CONTINUED` or
`CLOSE_TAB` (or any other), from any sender, the `onMessage` listener returns the store
as it received it (settings with `nudgedToday`, and every day bucket) and none of its
actions is a write to the store; the on-demand check only sends a `SHOW_NUDGE` message
or nothing, `USER_CONTINUED` performs no action at all, and `CLOSE_TAB` only removes the
sender's tab. -/
theorem inbound_messages_keep_store (key : String) (message : Message)
    (senderTab : Option Nat) (st : Storage) :
    (onMessage key message senderTab st).1 = st ∧
      (∀ e ∈ (onMessage key message senderTab st).2, e.isWrite = false) ∧
      (∀ domain, (onMessage key (Message.checkLimit domain) senderTab st).2 =
        handleCheckLimit key domain senderTab st) ∧
      (∀ domain, onMessage key (Message.userContinued domain) senderTab st = (st, [])) ∧
      (∀ e ∈ (onMessage key Message.closeTab senderTab st).2,
        ∃ id, e = Event.removeTab id ∧ senderTab = some id) := by
  refine ⟨?_, ?_, fun _ => rfl, fun _ => rfl, ?_⟩
  · cases message with
    | checkLimit domain => rfl
    | userContinued domain => rfl
    | closeTab =>
      unfold onMessage
      dsimp only
      split
      · split <;> rfl
      · rfl
    | other => rfl
  · intro e he
    cases message with
    | checkLimit domain => exact handleCheckLimit_no_write key domain senderTab st e he
    | userContinued domain => simp [onMessage] at he
    | closeTab =>
      unfold onMessage at he
      dsimp only at he
      split at he
      · split at he
        · simp at he
        · simp only [List.mem_singleton] at he
          rw [he]
          rfl
      · simp at he
    | other => simp [onMessage] at he
  · intro e he
    cases senderTab with
    | none => simp [onMessage] at he
    | some id =>
      by_cases h0 : id = 0
      · simp [onMessage, h0] at he
      · simp [onMessage, h0] at he
        exact ⟨id, he, rfl⟩

/-! ## The day-key scheme -/

theorem digitChar_inj (a b : Nat) (ha : a < 10) (hb : b < 10)
    (h : digitChar a = digitChar b) : a = b := by
  interval_cases a <;> interval_cases b <;> first | rfl | exact absurd h (by decide)

theorem digitChar_ne_minus (d : Nat) : digitChar d ≠ '-' := by
  unfold digitChar
  split <;> decide

theorem map_digitChar_inj (l1 l2 : List Nat) (h1 : ∀ d ∈ l1, d < 10) (h2 : ∀ d ∈ l2, d < 10)
    (h : l1.map digitChar = l2.map digitChar) : l1 = l2 := by
  induction l1 generalizing l2 with
  | nil =>
    cases l2 with
    | nil => rfl
    | cons b bs => simp at h
  | cons a as ih =>
    cases l2 with
    | nil => simp at h
    | cons b bs =>
      simp only [List.map_cons, List.cons.injEq] at h
      have hab := digitChar_inj a b (h1 a (List.mem_cons_self _ _))
        (h2 b (List.mem_cons_self _ _)) h.1
      have htl := ih bs (fun d hd => h1 d (List.mem_cons_of_mem _ hd))
        (fun d hd => h2 d (List.mem_cons_of_mem _ hd)) h.2
      rw [hab, htl]

theorem natChars_pos (n : Nat) (hn : n ≠ 0) :
    natChars n = (Nat.digits 10 n).reverse.map digitChar := by
  simp [natChars, hn]

theorem natChars_pos_ne_zero (n : Nat) (hn : n ≠ 0) : natChars n ≠ ['0'] := by
  rw [natChars_pos n hn]
  intro h
  have hrev : (Nat.digits 10 n).reverse.map digitChar = [0].map digitChar := h
  have hlt : ∀ d ∈ (Nat.digits 10 n).reverse, d < 10 := fun d hd =>
    Nat.digits_lt_base (by norm_num) (List.mem_reverse.mp hd)
  have hl := map_digitChar_inj _ [0] hlt (by simp) hrev
  have hd : Nat.digits 10 n = [0] := by
    have := congrArg List.reverse hl
    simpa using this
  have hne : Nat.digits 10 n ≠ [] := by rw [hd]; simp
  have hlast := Nat.getLast_digit_ne_zero 10 hn
  simp [hd] at hlast

theorem natChars_inj (a b : Nat) (h : natChars a = natChars b) : a = b := by
  by_cases ha : a = 0
  · by_cases hb : b = 0
    · rw [ha, hb]
    · subst ha
      exact absurd h.symm (natChars_pos_ne_zero b hb)
  · by_cases hb : b = 0
    · subst hb
      exact absurd h (natChars_pos_ne_zero a ha)
    · rw [natChars_pos a ha, natChars_pos b hb] at h
      have hlt : ∀ n : Nat, ∀ d ∈ (Nat.digits 10 n).reverse, d < 10 := fun n d hd =>
        Nat.digits_lt_base (by norm_num) (List.mem_reverse.mp hd)
      have hl := map_digitChar_inj _ _ (hlt a) (hlt b) h
      have hd : Nat.digits 10 a = Nat.digits 10 b := by
        have := congrArg List.reverse hl
        simpa using this
      exact Nat.digits.injective 10 hd

theorem natChars_head (n : Nat) : ∃ d rest, natChars n = digitChar d :: rest := by
  by_cases hn : n = 0
  · exact ⟨0, [], by simp [natChars, hn, digitChar]⟩
  · rw [natChars_pos n hn]
    have hne : (Nat.digits 10 n).reverse ≠ [] := by
      simpa using (Nat.digits_ne_nil_iff_ne_zero.mpr hn)
    cases hr : (Nat.digits 10 n).reverse with
    | nil => exact absurd hr hne
    | cons d rest => exact ⟨d, rest.map digitChar, by simp⟩

theorem intChars_inj (a b : Int) (h : intChars a = intChars b) : a = b := by
  cases a with
  | ofNat m =>
    cases b with
    | ofNat n =>
      simp only [intChars] at h
      rw [natChars_inj m n h]
    | negSucc n =>
      simp only [intChars] at h
      obtain ⟨d, rest, hd⟩ := natChars_head m
      rw [hd] at h
      simp only [List.cons.injEq] at h
      exact absurd h.1 (digitChar_ne_minus d)
  | negSucc m =>
    cases b with
    | ofNat n =>
      simp only [intChars] at h
      obtain ⟨d, rest, hd⟩ := natChars_head n
      rw [hd] at h
      simp only [List.cons.injEq] at h
      exact absurd h.1.symm (digitChar_ne_minus d)
    | negSucc n =>
      simp only [intChars, List.cons.injEq, true_and] at h
      have := natChars_inj _ _ h
      have hmn : m = n := by omega
      rw [hmn]

theorem padStart2_natChars (n : Nat) (h : n < 100) : padStart2 (natChars n) = twoDigits n := by
  by_cases h0 : n = 0
  · subst h0
    simp [padStart2, natChars, twoDigits, digitChar]
  · by_cases h10 : n < 10
    · have hd : Nat.digits 10 n = [n] := Nat.digits_of_lt 10 n h0 h10
      have hq : n / 10 = 0 := by omega
      have hr : n % 10 = n := by omega
      simp [padStart2, natChars, twoDigits, h0, hd, hq, hr, digitChar]
    · have hpos : 0 < n := by omega
      have hq0 : n / 10 ≠ 0 := by omega
      have hq10 : n / 10 < 10 := by omega
      have hd : Nat.digits 10 n = [n % 10, n / 10] := by
        rw [Nat.digits_def' (by norm_num) hpos, Nat.digits_of_lt 10 (n / 10) hq0 hq10]
      simp [padStart2, natChars, twoDigits, h0, hd]

theorem twoDigits_inj (a b : Nat) (ha : a < 100) (hb : b < 100)
    (h : twoDigits a = twoDigits b) : a = b := by
  simp only [twoDigits, List.cons.injEq, and_true] at h
  have h1 := digitChar_inj _ _ (by omega) (by omega) h.1
  have h2 := digitChar_inj _ _ (Nat.mod_lt _ (by norm_num)) (Nat.mod_lt _ (by norm_num)) h.2
  omega

theorem getTodayKey_eq_spec (y : Int) (m d : Nat) (hm : 1 ≤ m ∧ m ≤ 12)
    (hd : 1 ≤ d ∧ d ≤ 31) :
    getTodayKey { fullYear := y, month := m - 1, date := d } = specDayKey y m d := by
  have hm1 : m - 1 + 1 = m := by omega
  simp only [getTodayKey, specDayKey, hm1]
  rw [padStart2_natChars m (by omega), padStart2_natChars d (by omega)]

theorem specDayKey_inj (y y2 : Int) (m d m2 d2 : Nat) (hm : m < 100) (hd : d < 100)
    (hm2 : m2 < 100) (hd2 : d2 < 100) (h : specDayKey y m d = specDayKey y2 m2 d2) :
    y = y2 ∧ m = m2 ∧ d = d2 := by
  have h0 := congrArg String.data h
  simp only [specDayKey] at h0
  have h1 := List.append_inj' h0 (by simp [twoDigits])
  have h2 := List.append_inj' h1.1 (by simp)
  have h3 := List.append_inj' h2.1 (by simp [twoDigits])
  have h4 := List.append_inj' h3.1 (by simp)
  have h5 := List.append_cancel_left h4.1
  exact ⟨intChars_inj y y2 h5, twoDigits_inj m m2 hm hm2 h3.2, twoDigits_inj d d2 hd hd2 h1.2⟩

/-- C18. For every local date with year `y`, month `m` in 1..12 and day `d` in 1..31,
`getTodayKey` returns `tracking_`, the year in decimal, `-`, the month on two digits,
`-`, the day on two digits; two such dates with the same key are the same date; and the
four copies of the function (`getTodayKey` of `background.js`, `options.js` and
`popup.js`, `getDateKey` of `stats.js`) return the same key for every date. -/
theorem day_key_scheme (y y2 : Int) (m d m2 d2 : Nat)
    (hm : 1 ≤ m ∧ m ≤ 12) (hd : 1 ≤ d ∧ d ≤ 31)
    (hm2 : 1 ≤ m2 ∧ m2 ≤ 12) (hd2 : 1 ≤ d2 ∧ d2 ≤ 31) :
    getTodayKey { fullYear := y, month := m - 1, date := d } = specDayKey y m d ∧
      (getTodayKey { fullYear := y, month := m - 1, date := d } =
          getTodayKey { fullYear := y2, month := m2 - 1, date := d2 } →
        y = y2 ∧ m = m2 ∧ d = d2) ∧
      (∀ date : JsDate,
        Options.getTodayKey date = getTodayKey date ∧
          Popup.getTodayKey date = getTodayKey date ∧
          Stats.getDateKey date = getTodayKey date) := by
  refine ⟨getTodayKey_eq_spec y m d hm hd, ?_, fun date => ⟨rfl, rfl, rfl⟩⟩
  intro h
  rw [getTodayKey_eq_spec y m d hm hd, getTodayKey_eq_spec y2 m2 d2 hm2 hd2] at h
  exact specDayKey_inj y y2 m d m2 d2 (by omega) (by omega) (by omega) (by omega) h

/-- The key of 5 January 2024, and its difference from the key of 1 May 2024. -/
theorem day_key_scheme_witness :
    getTodayKey { fullYear := 2024, month := 1 - 1, date := 5 } = specDayKey 2024 1 5 ∧
    specDayKey 2024 1 5 = "tracking_2024-01-05" ∧
    (getTodayKey { fullYear := 2024, month := 1 - 1, date := 5 } =
        getTodayKey { fullYear := 2024, month := 5 - 1, date := 1 } →
      (2024 : Int) = 2024 ∧ 1 = 5 ∧ 5 = 1) :=
  ⟨(day_key_scheme 2024 2024 1 5 5 1 (by decide) (by decide) (by decide) (by decide)).1,
    by simp [specDayKey, intChars, natChars, twoDigits, digitChar],
    (day_key_scheme 2024 2024 1 5 5 1 (by decide) (by decide) (by decide) (by decide)).2.1⟩

end TabOut
